import Mathlib

set_option maxRecDepth 100000

/-! # Shallow embedding of the NVS Storage layer

A formalisation of `src/src/Storage.cpp` from mikee47/nvs_flash.  The
`Page`, `PageManager` and `Item` classes are not part of the provided
sources; where their behaviour is needed it is modelled from the
specification (spec.md sections 3, 4.1 and 4.2) and each such definition
is marked `Modelled from the spec`.  Everything in the `Storage`
namespace below is translated directly from `Storage.cpp`. -/

/-- Datatype tag of an item (spec section 3: fixed types, `STR` (named `SZ`
in the source), `BLOB` legacy format, `BLOB_DATA` chunks, `BLOB_IDX`
blob index records, and the `ANY` wildcard used in lookups). -/
inductive ItemType where
  | U8 | I8 | U16 | I16 | U32 | I32 | U64 | I64
  | SZ | BLOB | BLOB_DATA | BLOB_IDX | ANY
deriving DecidableEq

/-- Error codes (spec section 6; `esp_err_t` values used by Storage.cpp). -/
inductive Err where
  | OK | NOT_INITIALIZED | NOT_FOUND | INVALID_STATE | INVALID_ARG | NO_MEM
  | NOT_ENOUGH_SPACE | PAGE_FULL | VALUE_TOO_LONG | CONTENT_DIFFERS
  | INVALID_LENGTH | NO_FREE_PAGES
deriving DecidableEq

/-- State of one entry of a page after mount (spec section 3; the
transient WRITING state is reclaimed at mount and never observed by
Storage). -/
inductive EntryState where
  | WRITTEN | ERASED
deriving DecidableEq

/-- Page states (spec section 3). -/
inductive PageState where
  | UNINITIALIZED | ACTIVE | FULL | FREEING | CORRUPT | INVALID
deriving DecidableEq

/-- Storage states (Storage.hpp `enum class State`). -/
inductive StorageSt where
  | INVALID | ACTIVE
deriving DecidableEq

/-- Size of one page entry in bytes (spec section 6: commonly 32 bytes). -/
def ENTRY_SIZE : Nat := 32

/-- Number of entries of a page (spec scenario S4: 126 entries per sector). -/
def ENTRY_COUNT : Nat := 126

/-- Maximum payload of one chunk: all entries of a page except the header
entry of the item (consistent with spec scenario S2: an 8192-byte blob is
3 chunks on 4 KB pages). -/
def CHUNK_MAX_SIZE : Nat := ENTRY_SIZE * (ENTRY_COUNT - 1)

/-- Reserved namespace index holding the name-to-index map (spec section 3). -/
def NS_INDEX : Nat := 0

/-- Wildcard namespace index for searches (spec section 3). -/
def NS_ANY : Nat := 255

/-- Wildcard chunk index for searches (`Page::CHUNK_ANY`). -/
def CHUNK_ANY : Nat := 255

/-- VerOffset value of blob version 0 (spec section 3: `chunkIndex`
ranges `VER_0_OFFSET ≤ i < VER_1_OFFSET` are version-0 chunks). -/
def VER_0_OFFSET : Nat := 0

/-- VerOffset value of blob version 1. -/
def VER_1_OFFSET : Nat := 128

/-- VerOffset wildcard for searches. -/
def VER_ANY : Nat := 255

/-- Payload of a `BLOB_IDX` item (spec section 3). -/
structure BlobIndexInfo where
  dataSize : Nat
  chunkCount : Nat
  chunkStart : Nat
deriving DecidableEq

/-- Modelled from the spec (section 3, Item): one item as it sits on a
page.  The key is abstracted to a natural number (source keys are short
NUL-terminated strings compared for equality); payload bytes are a list
of naturals; the `blobIndex` field is meaningful only for `BLOB_IDX`
items.  The entry-state of the whole span is `status`. -/
structure EItem where
  nsIndex : Nat
  datatype : ItemType
  key : Nat
  chunkIndex : Nat
  data : List Nat
  blobIndex : BlobIndexInfo
  status : EntryState
deriving DecidableEq

/-- Modelled from the spec (section 3): number of entry slots an item
occupies — 1 for fixed-size types, `1 + ceil(payload/ENTRY_SIZE)` for
variable-length types. -/
def entrySpan (ty : ItemType) (len : Nat) : Nat :=
  match ty with
  | .SZ | .BLOB | .BLOB_DATA => 1 + (len + ENTRY_SIZE - 1) / ENTRY_SIZE
  | _ => 1

/-- Span of an item on its page. -/
def EItem.span (it : EItem) : Nat :=
  entrySpan it.datatype it.data.length

theorem EItem.span_pos (it : EItem) : 1 ≤ it.span := by
  unfold EItem.span entrySpan
  cases it.datatype <;> simp

/-- A lookup query: the argument tuple of `Page::findItem` (spec section
4.1).  `NS_ANY`, `CHUNK_ANY`, `VER_ANY` and a missing key act as
wildcards. -/
structure Query where
  ns : Nat
  ty : ItemType
  key : Option Nat
  chunkIdx : Nat
  chunkStart : Nat
deriving DecidableEq

/-- Modelled from the spec (section 4.1): whether an item matches a
query — only WRITTEN items match, and every non-wildcard field must be
equal.  The `chunkStart` filter is only ever used with `BLOB_IDX`
lookups and compares the index record's `chunkStart` field. -/
def itemMatches (q : Query) (it : EItem) : Prop :=
  it.status = .WRITTEN ∧
  (q.ns = NS_ANY ∨ it.nsIndex = q.ns) ∧
  (q.ty = .ANY ∨ it.datatype = q.ty) ∧
  (q.key = none ∨ q.key = some it.key) ∧
  (q.chunkIdx = CHUNK_ANY ∨ it.chunkIndex = q.chunkIdx) ∧
  (q.chunkStart = VER_ANY ∨ it.blobIndex.chunkStart = q.chunkStart)

instance (q : Query) (it : EItem) : Decidable (itemMatches q it) := by
  unfold itemMatches; infer_instance

/-- Modelled from the spec (section 4.1, `findItem`): linear scan of the
entry array from entry position `startIdx`; `pos` is the entry position
of the head of `items`.  Returns the entry position of the hit and the
item. -/
def pageFindFrom (q : Query) : List EItem → Nat → Nat → Option (Nat × EItem)
  | [], _, _ => none
  | it :: rest, pos, startIdx =>
    if startIdx ≤ pos ∧ itemMatches q it then some (pos, it)
    else pageFindFrom q rest (pos + it.span) startIdx

/-- Modelled from the spec (section 3, Page): a sector-sized container
of entries; the entry array is the list of items in placement order. -/
structure Page where
  state : PageState
  items : List EItem
deriving DecidableEq

/-- Entries consumed by the items of a page (erased items still occupy
their entries until the page is reclaimed). -/
def Page.usedEntryCount (p : Page) : Nat :=
  (p.items.map EItem.span).sum

/-- Modelled from the spec (section 4.1): entries available for payload,
excluding the header entry of a hypothetical new item; in bytes. -/
def Page.getVarDataTailroom (p : Page) : Nat :=
  match p.state with
  | .UNINITIALIZED => CHUNK_MAX_SIZE
  | .ACTIVE => (ENTRY_COUNT - 1 - p.usedEntryCount) * ENTRY_SIZE
  | _ => 0

/-- Modelled from the spec (section 4.1, `findItem`). -/
def Page.findItem (p : Page) (q : Query) (startIdx : Nat) : Option (Nat × EItem) :=
  pageFindFrom q p.items 0 startIdx

/-- Marks the first matching item of the list ERASED, if any. -/
def eraseFirstAux (q : Query) : List EItem → Option (List EItem)
  | [] => none
  | it :: rest =>
    if itemMatches q it then some ({it with status := .ERASED} :: rest)
    else (eraseFirstAux q rest).map (it :: ·)

/-- Modelled from the spec (section 4.1, `eraseItem`): find the first
matching item and flip its span WRITTEN to ERASED; `NOT_FOUND` when no
match. -/
def Page.eraseItem (p : Page) (q : Query) : Err × Page :=
  match eraseFirstAux q p.items with
  | none => (.NOT_FOUND, p)
  | some items => (.OK, { p with items := items })

/-- Modelled from the spec (section 4.1, `writeItem`): fails with
`INVALID_STATE` when the page is not ACTIVE and with `PAGE_FULL` when
the item's span does not fit in the remaining entries; otherwise the
item is appended WRITTEN. -/
def Page.writeItem (p : Page) (ns : Nat) (ty : ItemType) (key : Nat)
    (data : List Nat) (chunkIdx : Nat) (bi : BlobIndexInfo) : Err × Page :=
  if p.state ≠ .ACTIVE then (.INVALID_STATE, p)
  else if ENTRY_COUNT < p.usedEntryCount + entrySpan ty data.length then (.PAGE_FULL, p)
  else (.OK, { p with items := p.items ++ [⟨ns, ty, key, chunkIdx, data, bi, .WRITTEN⟩] })

/-- Modelled from the spec (section 4.1, `cmpItem`): byte-compare the
payload of the first matching item; `OK` on exact match,
`CONTENT_DIFFERS` otherwise, `NOT_FOUND` when absent. -/
def Page.cmpItem (p : Page) (q : Query) (data : List Nat) : Err :=
  match p.findItem q 0 with
  | none => .NOT_FOUND
  | some (_, it) => if it.data = data then .OK else .CONTENT_DIFFERS

/-- Modelled from the spec (section 4.1, `readItem`): payload of the
first matching item. -/
def Page.readItem (p : Page) (q : Query) : Err × List Nat :=
  match p.findItem q 0 with
  | none => (.NOT_FOUND, [])
  | some (_, it) => (.OK, it.data)

/-- Modelled from the spec (section 4.1, `markFull`): monotonic
transition ACTIVE to FULL. -/
def Page.markFull (p : Page) : Err × Page :=
  (.OK, { p with state := .FULL })

/-- One entry of the in-memory namespace list (Storage.hpp
`NamespaceEntry`), with the name abstracted to a natural number. -/
structure NamespaceEntry where
  mName : Nat
  mIndex : Nat
deriving DecidableEq

/-- One entry of the transient blob-index list built at mount
(Storage.hpp `BlobIndexNode`). -/
structure BlobIndexNode where
  key : Nat
  nsIndex : Nat
  chunkCount : Nat
  chunkStart : Nat
deriving DecidableEq

/-- Aggregated statistics (`nvs_stats_t`). -/
structure NvsStats where
  usedEntries : Nat
  freeEntries : Nat
  totalEntries : Nat
  namespaceCount : Nat
deriving DecidableEq

/-- The Storage object (Storage.hpp data members).  The PageManager is
modelled from the spec as the ordered list of its pages, the current
(tail) page last, together with a counter `mFreePages` of pages that
`requestNewPage` can still provide (directly or through garbage
collection).  The namespace-usage bitmap is the list of indices whose
bit is set. -/
structure Storage where
  mPages : List Page
  mFreePages : Nat
  mNamespaces : List NamespaceEntry
  mNamespaceUsage : List Nat
  mState : StorageSt
  mLastError : Err
deriving DecidableEq

/-- Placeholder page used for out-of-range accesses (never reachable
from the translated code paths). -/
def dummyPage : Page := ⟨.INVALID, []⟩

/-- A freshly initialised ACTIVE page. -/
def freshPage : Page := ⟨.ACTIVE, []⟩

/-- Storage::getCurrentPage: the tail page of the page manager. -/
def getCurrentPage (s : Storage) : Page :=
  s.mPages.getD (s.mPages.length - 1) dummyPage

/-- Replaces the tail page. -/
def setCurrentPage (s : Storage) (p : Page) : Storage :=
  { s with mPages := s.mPages.set (s.mPages.length - 1) p }

/-- Modelled from the spec (section 4.2): total number of pages managed
(`PageManager::getPageCount`). -/
def getPageCount (s : Storage) : Nat :=
  s.mPages.length + s.mFreePages

/-- Modelled from the spec (section 4.2, `requestNewPage`): provide a
fresh ACTIVE page; the pool of obtainable pages (directly free or
recoverable by garbage collection) is abstracted by `mFreePages`, and
its exhaustion is the capacity error `NOT_ENOUGH_SPACE` of spec
section 7. -/
def requestNewPage (s : Storage) : Err × Storage :=
  if s.mFreePages = 0 then (.NOT_ENOUGH_SPACE, s)
  else (.OK, { s with mPages := s.mPages ++ [freshPage], mFreePages := s.mFreePages - 1 })

/-- The `markFull` step performed before requesting a new page
(Storage.cpp lines 183-188, 225-230, 337-342): mark the current page
FULL unless it already is. -/
def markFullCurrentIfNeeded (s : Storage) : Storage :=
  if (getCurrentPage s).state ≠ .FULL then
    setCurrentPage s ((getCurrentPage s).markFull).2
  else s

/-- Storage::findItem (Storage.cpp lines 145-159) iterating the page
list; returns the index of the first page holding a match together with
the item found there. -/
def Storage.findItemInPages (q : Query) : List Page → Nat → Option (Nat × EItem)
  | [], _ => none
  | p :: rest, i =>
    match p.findItem q 0 with
    | some (_, it) => some (i, it)
    | none => Storage.findItemInPages q rest (i + 1)

/-- Storage::findItem as a pure lookup (the source also records OK or
NOT_FOUND in mLastError; the callers below reproduce that where the
value is observable). -/
def Storage.findItem (s : Storage) (q : Query) : Option (Nat × EItem) :=
  Storage.findItemInPages q s.mPages 0

/-- The do-while loop of Storage::writeMultiPageBlob (Storage.cpp lines
177-250), carried state: `chunkCount`, `remainingSize`, `offset` and
the rollback list of page indices (`usedPages`).  The loop is given
fuel; the chosen fuel (`dataSize + 4`) always suffices since every
chunk-writing iteration consumes at least one remaining byte and the
skip-to-fresh-page branch can fire at most once. -/
def writeBlobLoop (nsIndex key : Nat) (data : List Nat) (chunkStart : Nat) :
    Nat → Storage → Nat → Nat → Nat → List Nat → Err × Storage × List Nat
  | 0, s, _, _, _, usedPages => (.NOT_ENOUGH_SPACE, s, usedPages)
  | fuel + 1, s, chunkCount, remainingSize, offset, usedPages =>
    let page := getCurrentPage s
    let tailroom := page.getVarDataTailroom
    if chunkCount = 0 ∧ tailroom < data.length ∧ tailroom < CHUNK_MAX_SIZE / 10 then
      match requestNewPage (markFullCurrentIfNeeded s) with
      | (.OK, s2) =>
        if (getCurrentPage s2).getVarDataTailroom = tailroom then
          (.NOT_ENOUGH_SPACE, s2, usedPages)
        else
          writeBlobLoop nsIndex key data chunkStart fuel s2 chunkCount remainingSize offset usedPages
      | (e, s2) => (e, s2, usedPages)
    else if tailroom = 0 then (.NOT_ENOUGH_SPACE, s, usedPages)
    else
      let chunkSize := if remainingSize > tailroom then tailroom else remainingSize
      match page.writeItem nsIndex .BLOB_DATA key ((data.drop offset).take chunkSize)
          (chunkStart + chunkCount) ⟨0, 0, 0⟩ with
      | (.OK, p1) =>
        let s1 := setCurrentPage s p1
        let usedPages1 := usedPages ++ [s1.mPages.length - 1]
        match (if remainingSize - chunkSize ≠ 0 ∨ tailroom - chunkSize < ENTRY_SIZE then
                requestNewPage (markFullCurrentIfNeeded s1)
              else (.OK, s1)) with
        | (.OK, s2) =>
          if remainingSize - chunkSize = 0 then
            match (getCurrentPage s2).writeItem nsIndex .BLOB_IDX key [] CHUNK_ANY
                ⟨data.length, chunkCount + 1, chunkStart⟩ with
            | (e, p2) => (e, setCurrentPage s2 p2, usedPages1)
          else
            writeBlobLoop nsIndex key data chunkStart fuel s2 (chunkCount + 1)
              (remainingSize - chunkSize) (offset + chunkSize) usedPages1
        | (e, s2) => (e, s2, usedPages1)
      | (e, p1) => (e, setCurrentPage s p1, usedPages)

/-- The rollback loop of Storage::writeMultiPageBlob (Storage.cpp lines
252-258): on failure, walk the rollback list and erase, on the n-th
recorded page, the item `(nsIndex, BLOB_DATA, key, chunkIndex = n)`,
ignoring the per-erase result. -/
def rollbackChunks (nsIndex key : Nat) : Storage → List Nat → Nat → Storage
  | s, [], _ => s
  | s, pi :: rest, ii =>
    let p := s.mPages.getD pi dummyPage
    let p1 := (p.eraseItem ⟨nsIndex, .BLOB_DATA, some key, ii, VER_ANY⟩).2
    rollbackChunks nsIndex key { s with mPages := s.mPages.set pi p1 } rest (ii + 1)

/-- Storage::writeMultiPageBlob (Storage.cpp lines 161-262).  The
`maxPages` computation reproduces the uint32 arithmetic of
`mPageManager.getPageCount() - 1`. -/
def Storage.writeMultiPageBlob (s : Storage) (nsIndex key : Nat) (data : List Nat)
    (chunkStart : Nat) : Bool × Storage :=
  let maxPages := min ((getPageCount s + 4294967295) % 4294967296) ((CHUNK_ANY - 1) / 2)
  if maxPages * CHUNK_MAX_SIZE < data.length then
    (false, { s with mLastError := .VALUE_TOO_LONG })
  else
    match writeBlobLoop nsIndex key data chunkStart (data.length + 4) s 0 data.length 0 [] with
    | (e, s1, usedPages) =>
      if e = .OK then (true, { s1 with mLastError := e })
      else (false, rollbackChunks nsIndex key { s1 with mLastError := e } usedPages 0)

/-- The chunk-comparison loop of Storage::cmpMultiPageBlob (Storage.cpp
lines 498-512), structural on the number of chunks left; arguments are
remaining chunks, current chunk ordinal and byte offset into `data`. -/
def cmpChunksLoop (s : Storage) (nsIndex key : Nat) (data : List Nat) (chunkStart : Nat) :
    Nat → Nat → Nat → Err
  | 0, _, _ => .OK
  | n + 1, chunkNum, offset =>
    match Storage.findItem s ⟨nsIndex, .BLOB_DATA, some key, chunkStart + chunkNum, VER_ANY⟩ with
    | none => .NOT_FOUND
    | some (pi, it) =>
      match (s.mPages.getD pi dummyPage).cmpItem
          ⟨nsIndex, .BLOB_DATA, some key, chunkStart + chunkNum, VER_ANY⟩
          ((data.drop offset).take it.data.length) with
      | .OK => cmpChunksLoop s nsIndex key data chunkStart n (chunkNum + 1) (offset + it.data.length)
      | e => e

/-- Storage::cmpMultiPageBlob (Storage.cpp lines 477-520); returns the
boolean result together with the value left in mLastError. -/
def Storage.cmpMultiPageBlob (s : Storage) (nsIndex key : Nat) (data : List Nat) : Bool × Err :=
  match Storage.findItem s ⟨nsIndex, .BLOB_IDX, some key, CHUNK_ANY, VER_ANY⟩ with
  | none => (false, .NOT_FOUND)
  | some (_, it) =>
    if data.length ≠ it.blobIndex.dataSize then (false, .CONTENT_DIFFERS)
    else
      match cmpChunksLoop s nsIndex key data it.blobIndex.chunkStart it.blobIndex.chunkCount 0 0 with
      | .OK => (true, .OK)
      | e => (false, e)

/-- The common tail of Storage::writeItem (Storage.cpp lines 361-375):
erase the previous version, re-locating it first if the page that held
it was recycled meanwhile (the source asserts that re-location succeeds
via ESP_ERROR_CHECK; its failure is modelled as an INVALID_STATE
failure). -/
def Storage.writeItemFinish (s : Storage) (nsIndex : Nat) (datatype : ItemType) (key : Nat) :
    Option Nat → Bool × Storage
  | none => (true, { s with mLastError := .OK })
  | some pi =>
    let p := s.mPages.getD pi dummyPage
    match (if p.state = .UNINITIALIZED ∨ p.state = .INVALID then
            (Storage.findItem s ⟨nsIndex, datatype, some key, CHUNK_ANY, VER_ANY⟩).map Prod.fst
          else some pi) with
    | none => (false, { s with mLastError := .INVALID_STATE })
    | some j =>
      match (s.mPages.getD j dummyPage).eraseItem ⟨nsIndex, datatype, some key, CHUNK_ANY, VER_ANY⟩ with
      | (.OK, p2) => (true, { s with mPages := s.mPages.set j p2, mLastError := .OK })
      | (e, _) => (false, { s with mLastError := e })

/-- The chunk-erasure loop of Storage::eraseMultiPageBlob (Storage.cpp
lines 577-589): for each chunk ordinal, locate and erase the chunk,
skipping ordinals whose chunk is already gone. -/
def eraseChunksLoop (nsIndex key chunkStart : Nat) : Storage → Nat → Nat → Bool × Storage
  | s, _, 0 => (true, { s with mLastError := .OK })
  | s, chunkNum, n + 1 =>
    match Storage.findItem s ⟨nsIndex, .BLOB_DATA, some key, chunkStart + chunkNum, VER_ANY⟩ with
    | none => eraseChunksLoop nsIndex key chunkStart s (chunkNum + 1) n
    | some (pi, _) =>
      match (s.mPages.getD pi dummyPage).eraseItem
          ⟨nsIndex, .BLOB_DATA, some key, chunkStart + chunkNum, VER_ANY⟩ with
      | (.OK, p1) =>
        eraseChunksLoop nsIndex key chunkStart
          { s with mPages := s.mPages.set pi p1 } (chunkNum + 1) n
      | (e, _) => (false, { s with mLastError := e })

/-- Storage::eraseMultiPageBlob (Storage.cpp lines 548-593): erase the
index first, making the chunks orphans, then erase each chunk of the
covered range. -/
def Storage.eraseMultiPageBlob (s : Storage) (nsIndex key : Nat) (chunkStart : Nat) :
    Bool × Storage :=
  if s.mState ≠ .ACTIVE then (false, { s with mLastError := .NOT_INITIALIZED })
  else
    match Storage.findItem s ⟨nsIndex, .BLOB_IDX, some key, CHUNK_ANY, chunkStart⟩ with
    | none => (false, { s with mLastError := .NOT_FOUND })
    | some (pi, it) =>
      match (s.mPages.getD pi dummyPage).eraseItem
          ⟨nsIndex, .BLOB_IDX, some key, CHUNK_ANY, chunkStart⟩ with
      | (.OK, p1) =>
        eraseChunksLoop nsIndex key
          (if chunkStart = VER_ANY then it.blobIndex.chunkStart else chunkStart)
          { s with mPages := s.mPages.set pi p1 } 0 it.blobIndex.chunkCount
      | (e, _) => (false, { s with mLastError := e })

/-- The single-item write of Storage::writeItem after the elision check
(Storage.cpp lines 334-358 followed by the shared tail): write into the
current page, on PAGE_FULL mark it full, request a new page and retry
once, a second PAGE_FULL becoming NOT_ENOUGH_SPACE; on success erase
the previous version. -/
def Storage.writeItemScalar (s : Storage) (nsIndex : Nat) (datatype : ItemType) (key : Nat)
    (data : List Nat) (found : Option (Nat × EItem)) : Bool × Storage :=
  match (getCurrentPage s).writeItem nsIndex datatype key data CHUNK_ANY ⟨0, 0, 0⟩ with
  | (.OK, p1) =>
    Storage.writeItemFinish (setCurrentPage s p1) nsIndex datatype key (found.map Prod.fst)
  | (.PAGE_FULL, _) =>
    match requestNewPage (markFullCurrentIfNeeded s) with
    | (.OK, s1) =>
      match (getCurrentPage s1).writeItem nsIndex datatype key data CHUNK_ANY ⟨0, 0, 0⟩ with
      | (.OK, p2) =>
        Storage.writeItemFinish (setCurrentPage s1 p2) nsIndex datatype key (found.map Prod.fst)
      | (.PAGE_FULL, _) => (false, { s1 with mLastError := .NOT_ENOUGH_SPACE })
      | (e, _) => (false, { s1 with mLastError := e })
    | (e, s1) => (false, { s1 with mLastError := e })
  | (e, _) => (false, { s with mLastError := e })

/-- Storage::writeItem (Storage.cpp lines 264-376). -/
def Storage.writeItem (s : Storage) (nsIndex : Nat) (datatype : ItemType) (key : Nat)
    (data : List Nat) : Bool × Storage :=
  if s.mState ≠ .ACTIVE then (false, { s with mLastError := .NOT_INITIALIZED })
  else
    let found := Storage.findItem s
      ⟨nsIndex, if datatype = .BLOB then .BLOB_IDX else datatype, some key, CHUNK_ANY, VER_ANY⟩
    if datatype = .BLOB then
      match found with
      | some (fpi, it) =>
        match Storage.cmpMultiPageBlob s nsIndex key data with
        | (true, e) => (true, { s with mLastError := e })
        | (false, _) =>
          match (if (s.mPages.getD fpi dummyPage).state = .UNINITIALIZED ∨
                    (s.mPages.getD fpi dummyPage).state = .INVALID then
                  Storage.findItem s ⟨nsIndex, datatype, some key, CHUNK_ANY, VER_ANY⟩
                else some (fpi, it)) with
          | none => (false, { s with mLastError := .INVALID_STATE })
          | some (_, it2) =>
            let prevStart := it2.blobIndex.chunkStart
            let nextStart := if prevStart = VER_1_OFFSET then VER_0_OFFSET else VER_1_OFFSET
            match Storage.writeMultiPageBlob s nsIndex key data nextStart with
            | (false, s1) =>
              (false, if s1.mLastError = .PAGE_FULL then
                        { s1 with mLastError := .NOT_ENOUGH_SPACE } else s1)
            | (true, s1) =>
              match Storage.eraseMultiPageBlob s1 nsIndex key prevStart with
              | (false, s2) => (false, s2)
              | (true, s2) => Storage.writeItemFinish s2 nsIndex datatype key none
      | none =>
        match Storage.writeMultiPageBlob s nsIndex key data VER_0_OFFSET with
        | (false, s1) =>
          (false, if s1.mLastError = .PAGE_FULL then
                    { s1 with mLastError := .NOT_ENOUGH_SPACE } else s1)
        | (true, s1) =>
          Storage.writeItemFinish s1 nsIndex datatype key
            ((Storage.findItem s1 ⟨nsIndex, datatype, some key, CHUNK_ANY, VER_ANY⟩).map Prod.fst)
    else
      match found with
      | some (fpi, it) =>
        if (s.mPages.getD fpi dummyPage).cmpItem
            ⟨nsIndex, datatype, some key, CHUNK_ANY, VER_ANY⟩ data = .OK then
          (true, { s with mLastError := .OK })
        else Storage.writeItemScalar s nsIndex datatype key data (some (fpi, it))
      | none => Storage.writeItemScalar s nsIndex datatype key data none

/-- Storage::eraseItem (Storage.cpp lines 595-618): BLOB delegates to
the multi-page erase; otherwise the first match is inspected and, if it
is part of a multi-page blob, the whole blob is erased. -/
def Storage.eraseItem (s : Storage) (nsIndex : Nat) (datatype : ItemType) (key : Nat) :
    Bool × Storage :=
  if s.mState ≠ .ACTIVE then (false, { s with mLastError := .NOT_INITIALIZED })
  else if datatype = .BLOB then Storage.eraseMultiPageBlob s nsIndex key VER_ANY
  else
    match Storage.findItem s ⟨nsIndex, datatype, some key, CHUNK_ANY, VER_ANY⟩ with
    | none => (false, { s with mLastError := .NOT_FOUND })
    | some (pi, it) =>
      if it.datatype = .BLOB_DATA ∨ it.datatype = .BLOB_IDX then
        Storage.eraseMultiPageBlob s nsIndex key VER_ANY
      else
        match (s.mPages.getD pi dummyPage).eraseItem
            ⟨nsIndex, datatype, some key, CHUNK_ANY, VER_ANY⟩ with
        | (.OK, p1) => (true, { s with mPages := s.mPages.set pi p1, mLastError := .OK })
        | (e, _) => (false, { s with mLastError := e })

/-- The chunk-read loop of Storage::readMultiPageBlob (Storage.cpp lines
448-462); returns the final error and the bytes accumulated. -/
def readChunksLoop (s : Storage) (nsIndex key chunkStart : Nat) :
    Nat → Nat → Err × List Nat
  | 0, _ => (.OK, [])
  | n + 1, chunkNum =>
    match Storage.findItem s ⟨nsIndex, .BLOB_DATA, some key, chunkStart + chunkNum, VER_ANY⟩ with
    | none => (.NOT_FOUND, [])
    | some (pi, _) =>
      match (s.mPages.getD pi dummyPage).readItem
          ⟨nsIndex, .BLOB_DATA, some key, chunkStart + chunkNum, VER_ANY⟩ with
      | (.OK, bytes) =>
        match readChunksLoop s nsIndex key chunkStart n (chunkNum + 1) with
        | (e, rest) => (e, bytes ++ rest)
      | (e, _) => (e, [])

/-- Storage::readMultiPageBlob (Storage.cpp lines 430-475).  The source
asserts that the caller's buffer size equals the stored `dataSize`; the
assertion is modelled as an INVALID_LENGTH failure.  A missing chunk
triggers the self-healing `eraseMultiPageBlob` before NOT_FOUND is
reported. -/
def Storage.readMultiPageBlob (s : Storage) (nsIndex key : Nat) (dataSize : Nat) :
    Bool × Storage × List Nat :=
  match Storage.findItem s ⟨nsIndex, .BLOB_IDX, some key, CHUNK_ANY, VER_ANY⟩ with
  | none => (false, { s with mLastError := .NOT_FOUND }, [])
  | some (_, it) =>
    if dataSize ≠ it.blobIndex.dataSize then
      (false, { s with mLastError := .INVALID_LENGTH }, [])
    else
      match readChunksLoop s nsIndex key it.blobIndex.chunkStart it.blobIndex.chunkCount 0 with
      | (.OK, bytes) => (true, { s with mLastError := .OK }, bytes)
      | (.NOT_FOUND, _) =>
        (false, { (Storage.eraseMultiPageBlob s nsIndex key VER_ANY).2 with
                    mLastError := .NOT_FOUND }, [])
      | (e, _) => (false, { s with mLastError := e }, [])

/-- Storage::readItem (Storage.cpp lines 522-546). -/
def Storage.readItem (s : Storage) (nsIndex : Nat) (datatype : ItemType) (key : Nat)
    (dataSize : Nat) : Bool × Storage × List Nat :=
  if s.mState ≠ .ACTIVE then (false, { s with mLastError := .NOT_INITIALIZED }, [])
  else
    match (if datatype = .BLOB then
            some (Storage.readMultiPageBlob s nsIndex key dataSize)
          else none) with
    | some (true, s1, bytes) => (true, s1, bytes)
    | some (false, s1, _) =>
      if s1.mLastError ≠ .NOT_FOUND then (false, s1, [])
      else
        match Storage.findItem s1 ⟨nsIndex, datatype, some key, CHUNK_ANY, VER_ANY⟩ with
        | none => (false, { s1 with mLastError := .NOT_FOUND }, [])
        | some (pi, _) =>
          match (s1.mPages.getD pi dummyPage).readItem
              ⟨nsIndex, datatype, some key, CHUNK_ANY, VER_ANY⟩ with
          | (.OK, bytes) => (true, { s1 with mLastError := .OK }, bytes)
          | (e, _) => (false, { s1 with mLastError := e }, [])
    | none =>
      match Storage.findItem s ⟨nsIndex, datatype, some key, CHUNK_ANY, VER_ANY⟩ with
      | none => (false, { s with mLastError := .NOT_FOUND }, [])
      | some (pi, _) =>
        match (s.mPages.getD pi dummyPage).readItem
            ⟨nsIndex, datatype, some key, CHUNK_ANY, VER_ANY⟩ with
        | (.OK, bytes) => (true, { s with mLastError := .OK }, bytes)
        | (e, _) => (false, { s with mLastError := e }, [])

/-- Storage::getItemDataSize (Storage.cpp lines 645-669). -/
def Storage.getItemDataSize (s : Storage) (nsIndex : Nat) (datatype : ItemType) (key : Nat) :
    Bool × Storage × Nat :=
  if s.mState ≠ .ACTIVE then (false, { s with mLastError := .NOT_INITIALIZED }, 0)
  else
    match Storage.findItem s ⟨nsIndex, datatype, some key, CHUNK_ANY, VER_ANY⟩ with
    | some (_, it) => (true, { s with mLastError := .OK }, it.data.length)
    | none =>
      if datatype ≠ .BLOB then (false, { s with mLastError := .NOT_FOUND }, 0)
      else
        match Storage.findItem s ⟨nsIndex, .BLOB_IDX, some key, CHUNK_ANY, VER_ANY⟩ with
        | some (_, it) => (true, { s with mLastError := .OK }, it.blobIndex.dataSize)
        | none => (false, { s with mLastError := .NOT_FOUND }, 0)

/-- The per-page erase-until-NOT_FOUND loop of Storage::eraseNamespace
(Storage.cpp lines 627-639), given fuel (each successful erase removes
one WRITTEN item, so `items.length + 1` always suffices). -/
def eraseAllInPage (nsIndex : Nat) : Nat → Page → Err × Page
  | 0, p => (.OK, p)
  | fuel + 1, p =>
    match p.eraseItem ⟨nsIndex, .ANY, none, CHUNK_ANY, VER_ANY⟩ with
    | (.NOT_FOUND, p1) => (.OK, p1)
    | (.OK, p1) => eraseAllInPage nsIndex fuel p1
    | (e, p1) => (e, p1)

/-- Storage::eraseNamespace (Storage.cpp lines 620-643). -/
def Storage.eraseNamespace (s : Storage) (nsIndex : Nat) : Bool × Storage :=
  if s.mState ≠ .ACTIVE then (false, { s with mLastError := .NOT_INITIALIZED })
  else
    (true, { s with
        mPages := s.mPages.map (fun p => (eraseAllInPage nsIndex (p.items.length + 1) p).2),
        mLastError := .OK })

/-- Modelled from the spec (section 4.2, `fillStats`): aggregate
used/free/total entries over the pages; never fails. -/
def pageManagerFillStats (s : Storage) : Err × NvsStats :=
  (.OK,
   ⟨(s.mPages.map Page.usedEntryCount).sum,
    (s.mPages.map (fun p => ENTRY_COUNT - p.usedEntryCount)).sum,
    s.mPages.length * ENTRY_COUNT, 0⟩)

/-- Storage::fillStats (Storage.cpp lines 706-711).  Note that, unlike
the other public operations, it performs no state check. -/
def Storage.fillStats (s : Storage) : Bool × Storage × NvsStats :=
  match pageManagerFillStats s with
  | (e, stats) =>
    ((e = .OK : Bool), { s with mLastError := e },
     { stats with namespaceCount := s.mNamespaces.length })

/-- The per-page counting loop of Storage::calcEntriesInNamespace
(Storage.cpp lines 722-741), given fuel. -/
def calcEntriesLoop (nsIndex : Nat) (items : List EItem) : Nat → Nat → Nat
  | 0, _ => 0
  | fuel + 1, itemIndex =>
    match pageFindFrom ⟨nsIndex, .ANY, none, CHUNK_ANY, VER_ANY⟩ items 0 itemIndex with
    | none => 0
    | some (pos, it) =>
      if ENTRY_COUNT ≤ pos + it.span then it.span
      else it.span + calcEntriesLoop nsIndex items fuel (pos + it.span)

/-- Storage::calcEntriesInNamespace (Storage.cpp lines 713-745). -/
def Storage.calcEntriesInNamespace (s : Storage) (nsIndex : Nat) : Bool × Storage × Nat :=
  if s.mState ≠ .ACTIVE then (false, { s with mLastError := .NOT_INITIALIZED }, 0)
  else
    (true, { s with mLastError := .OK },
     (s.mPages.map (fun p => calcEntriesLoop nsIndex p.items (p.items.length + 1) 0)).sum)

/-- The free-index scan of Storage::createOrOpenNamespace (Storage.cpp
lines 392-397): `for (ns = 1; ns < 255; ++ns) if (!usage.get(ns)) break`;
returns the final value of `ns`. -/
def scanFreeNs (usage : List Nat) : Nat → Nat → Nat
  | 0, ns => ns
  | fuel + 1, ns =>
    if ns < 255 then (if ns ∈ usage then scanFreeNs usage fuel (ns + 1) else ns)
    else ns

/-- Storage::createOrOpenNamespace (Storage.cpp lines 378-428); the
third component is the `nsIndex` out-parameter (0 when unset). -/
def Storage.createOrOpenNamespace (s : Storage) (nsName : Nat) (canCreate : Bool) :
    Bool × Storage × Nat :=
  if s.mState ≠ .ACTIVE then (false, { s with mLastError := .NOT_INITIALIZED }, 0)
  else
    match s.mNamespaces.find? (fun e => e.mName == nsName) with
    | some e => (true, { s with mLastError := .OK }, e.mIndex)
    | none =>
      if ¬canCreate then (false, { s with mLastError := .NOT_FOUND }, 0)
      else
        let ns := scanFreeNs s.mNamespaceUsage 255 1
        if ns = 255 then (false, { s with mLastError := .NOT_ENOUGH_SPACE }, 0)
        else
          match Storage.writeItem s NS_INDEX .U8 nsName [ns] with
          | (false, s1) => (false, s1, 0)
          | (true, s1) =>
            (true, { s1 with
                mNamespaceUsage := ns :: s1.mNamespaceUsage,
                mNamespaces := s1.mNamespaces ++ [⟨nsName, ns⟩],
                mLastError := .OK }, ns)

/-- The per-page scan of Storage::init that rebuilds the namespace list
(Storage.cpp lines 100-119), given fuel. -/
def collectNsLoop (items : List EItem) : Nat → Nat → List NamespaceEntry
  | 0, _ => []
  | fuel + 1, itemIndex =>
    match pageFindFrom ⟨NS_INDEX, .U8, none, CHUNK_ANY, VER_ANY⟩ items 0 itemIndex with
    | none => []
    | some (pos, it) => ⟨it.key, it.data.getD 0 0⟩ :: collectNsLoop items fuel (pos + it.span)

/-- The per-page scan of Storage::populateBlobIndices (Storage.cpp lines
24-55), given fuel. -/
def collectBlobIdxLoop (items : List EItem) : Nat → Nat → List BlobIndexNode
  | 0, _ => []
  | fuel + 1, itemIndex =>
    match pageFindFrom ⟨NS_ANY, .BLOB_IDX, none, CHUNK_ANY, VER_ANY⟩ items 0 itemIndex with
    | none => []
    | some (pos, it) =>
      ⟨it.key, it.nsIndex, it.blobIndex.chunkCount, it.blobIndex.chunkStart⟩ ::
        collectBlobIdxLoop items fuel (pos + it.span)

/-- Storage::populateBlobIndices (Storage.cpp lines 24-55) as the list
it builds. -/
def Storage.populateBlobIndices (s : Storage) : List BlobIndexNode :=
  (s.mPages.map (fun (p : Page) => collectBlobIdxLoop p.items (p.items.length + 1) 0)).flatten

/-- Coverage test of Storage::eraseOrphanDataBlobs (Storage.cpp lines
69-73): the chunk belongs to the family of some collected blob index. -/
def coveredBy (blobIdxList : List BlobIndexNode) (it : EItem) : Prop :=
  ∃ e ∈ blobIdxList, it.key = e.key ∧ it.nsIndex = e.nsIndex ∧
    e.chunkStart ≤ it.chunkIndex ∧ it.chunkIndex < e.chunkStart + e.chunkCount

instance (L : List BlobIndexNode) (it : EItem) : Decidable (coveredBy L it) := by
  unfold coveredBy; infer_instance

/-- The per-page scan of Storage::eraseOrphanDataBlobs (Storage.cpp
lines 59-79), given fuel: walk the BLOB_DATA items and erase each one
not covered by any collected blob index. -/
def orphanLoop (blobIdxList : List BlobIndexNode) : Nat → Page → Nat → Page
  | 0, p, _ => p
  | fuel + 1, p, itemIndex =>
    match pageFindFrom ⟨NS_ANY, .BLOB_DATA, none, CHUNK_ANY, VER_ANY⟩ p.items 0 itemIndex with
    | none => p
    | some (pos, it) =>
      let p1 := if coveredBy blobIdxList it then p
                else (p.eraseItem ⟨it.nsIndex, it.datatype, some it.key, it.chunkIndex, VER_ANY⟩).2
      orphanLoop blobIdxList fuel p1 (pos + it.span)

/-- Storage::eraseOrphanDataBlobs (Storage.cpp lines 57-80). -/
def Storage.eraseOrphanDataBlobs (s : Storage) (blobIdxList : List BlobIndexNode) : Storage :=
  { s with mPages := s.mPages.map (fun p => orphanLoop blobIdxList (p.items.length + 1) p 0) }

/-- Storage::init (Storage.cpp lines 82-143).  `PageManager::load` is
not part of the provided sources and is modelled from the spec as
succeeding on the already-reconstructed page list; the handle-count
precondition and allocation failures are not modelled. -/
def Storage.init (s : Storage) : Bool × Storage :=
  let s1 := { s with
      mNamespaces := (s.mPages.map (fun (p : Page) => collectNsLoop p.items (p.items.length + 1) 0)).flatten,
      mState := StorageSt.ACTIVE }
  let s2 := { s1 with
      mNamespaceUsage := 0 :: 255 :: (s1.mNamespaces.map NamespaceEntry.mIndex) }
  let blobIdxList := Storage.populateBlobIndices s2
  (true, { Storage.eraseOrphanDataBlobs s2 blobIdxList with mLastError := .OK })

/-- Storage::ItemIterator (Storage.hpp lines 68-91): the base `Item`
data is modelled as the last item yielded. -/
structure ItemIterator where
  nsIndex : Nat
  itemType : ItemType
  entryIndex : Nat
  pageIndex : Nat
  done : Bool
  current : Option EItem
deriving DecidableEq

/-- The `isIterableItem` filter of Storage::ItemIterator::next
(Storage.cpp lines 770-772). -/
def isIterableItem (it : EItem) : Prop :=
  it.nsIndex ≠ 0 ∧ it.datatype ≠ .BLOB ∧ it.datatype ≠ .BLOB_IDX

instance (it : EItem) : Decidable (isIterableItem it) := by
  unfold isIterableItem; infer_instance

/-- The `isMultipageBlob` filter of Storage::ItemIterator::next
(Storage.cpp lines 774-777): a BLOB_DATA chunk whose chunk index is
neither version offset. -/
def isMultipageBlob (it : EItem) : Prop :=
  it.datatype = .BLOB_DATA ∧ it.chunkIndex ≠ VER_0_OFFSET ∧ it.chunkIndex ≠ VER_1_OFFSET

instance (it : EItem) : Decidable (isMultipageBlob it) := by
  unfold isMultipageBlob; infer_instance

/-- The inner do-while of Storage::ItemIterator::next (Storage.cpp lines
781-787): repeatedly find the next matching item of the page from the
cursor, skipping items that fail the iterable filters; returns the
cursor position after the yielded item.  Fuel `items.length + 1` always
suffices since every hit advances the cursor. -/
def iterInnerLoop (nsIndex : Nat) (itemType : ItemType) (items : List EItem) :
    Nat → Nat → Option (Nat × EItem)
  | 0, _ => none
  | fuel + 1, entryIndex =>
    match pageFindFrom ⟨nsIndex, itemType, none, CHUNK_ANY, VER_ANY⟩ items 0 entryIndex with
    | none => none
    | some (pos, it) =>
      if isIterableItem it ∧ ¬isMultipageBlob it then some (pos + it.span, it)
      else iterInnerLoop nsIndex itemType items fuel (pos + it.span)

/-- The page loop of Storage::ItemIterator::next (Storage.cpp lines
779-790): on exhaustion of a page, advance to the next page with the
cursor reset to 0. -/
def iterFindPages (nsIndex : Nat) (itemType : ItemType) :
    List Page → Nat → Nat → Option (Nat × Nat × EItem)
  | [], _, _ => none
  | p :: rest, pageIndex, entryIndex =>
    match iterInnerLoop nsIndex itemType p.items (p.items.length + 1) entryIndex with
    | some (idx, it) => some (pageIndex, idx, it)
    | none => iterFindPages nsIndex itemType rest (pageIndex + 1) 0

/-- Storage::ItemIterator::next (Storage.cpp lines 764-794). -/
def ItemIterator.next (s : Storage) (self : ItemIterator) : Bool × ItemIterator :=
  if self.done then (false, self)
  else
    match iterFindPages self.nsIndex self.itemType (s.mPages.drop self.pageIndex)
        self.pageIndex self.entryIndex with
    | some (pi, idx, it) =>
      (true, { self with pageIndex := pi, entryIndex := idx, current := some it })
    | none =>
      (false, { self with pageIndex := s.mPages.length, entryIndex := 0,
                          done := true, current := none })

/-- Storage::findEntry together with the ItemIterator constructor
(Storage.hpp line 160, Storage.cpp lines 747-755): an optional
namespace name is resolved through createOrOpenNamespace with
canCreate = false, failure leaving the iterator done. -/
def Storage.findEntry (s : Storage) (nsName : Option Nat) (itemType : ItemType) : ItemIterator :=
  match nsName with
  | none => ⟨NS_ANY, itemType, 0, 0, false, none⟩
  | some name =>
    match Storage.createOrOpenNamespace s name false with
    | (true, _, idx) => ⟨idx, itemType, 0, 0, false, none⟩
    | (false, _, _) => ⟨NS_ANY, itemType, 0, 0, true, none⟩

/-- All items yielded by repeatedly calling `next` on an iterator,
given fuel. -/
def iterCollect (s : Storage) : Nat → ItemIterator → List EItem
  | 0, _ => []
  | fuel + 1, it =>
    match ItemIterator.next s it with
    | (true, it1) =>
      match it1.current with
      | some e => e :: iterCollect s fuel it1
      | none => []
    | (false, _) => []

/-- Total number of items stored across all pages. -/
def totalItems (s : Storage) : Nat :=
  (s.mPages.map (fun p => p.items.length)).sum

/-- The full yield sequence of a fresh iterator over `s`. -/
def iterAllItems (s : Storage) (nsIndex : Nat) (itemType : ItemType) : List EItem :=
  iterCollect s (totalItems s + 1) ⟨nsIndex, itemType, 0, 0, false, none⟩

/-! ## General lemmas -/

theorem requestNewPage_err (s : Storage) :
    (requestNewPage s).1 = .OK ∨ (requestNewPage s).1 = .NOT_ENOUGH_SPACE := by
  unfold requestNewPage
  split <;> simp

theorem pageWriteItem_err (p : Page) (ns : Nat) (ty : ItemType) (key : Nat)
    (data : List Nat) (ci : Nat) (bi : BlobIndexInfo) :
    (p.writeItem ns ty key data ci bi).1 = .OK ∨
    (p.writeItem ns ty key data ci bi).1 = .INVALID_STATE ∨
    (p.writeItem ns ty key data ci bi).1 = .PAGE_FULL := by
  unfold Page.writeItem
  split
  · simp
  · split <;> simp

theorem rollbackChunks_mLastError (nsIndex key : Nat) (used : List Nat) :
    ∀ (s : Storage) (ii : Nat),
      (rollbackChunks nsIndex key s used ii).mLastError = s.mLastError := by
  induction used with
  | nil => intro s ii; rfl
  | cons pi rest ih => intro s ii; rw [rollbackChunks, ih]

theorem stepReq_err (s1 : Storage) (c : Prop) [Decidable c] :
    (if c then requestNewPage (markFullCurrentIfNeeded s1) else (.OK, s1)).1 = Err.OK ∨
    (if c then requestNewPage (markFullCurrentIfNeeded s1) else (.OK, s1)).1 =
      Err.NOT_ENOUGH_SPACE := by
  split
  · exact requestNewPage_err (markFullCurrentIfNeeded s1)
  · simp

theorem writeBlobLoop_err (nsIndex key : Nat) (data : List Nat) (chunkStart : Nat)
    (fuel : Nat) :
    ∀ (s : Storage) (cc rs off : Nat) (up : List Nat),
      (writeBlobLoop nsIndex key data chunkStart fuel s cc rs off up).1 = .OK ∨
      (writeBlobLoop nsIndex key data chunkStart fuel s cc rs off up).1 = .NOT_ENOUGH_SPACE ∨
      (writeBlobLoop nsIndex key data chunkStart fuel s cc rs off up).1 = .INVALID_STATE ∨
      (writeBlobLoop nsIndex key data chunkStart fuel s cc rs off up).1 = .PAGE_FULL := by
  induction fuel with
  | zero => intro s cc rs off up; simp [writeBlobLoop]
  | succ n ih =>
    intro s cc rs off up
    rw [writeBlobLoop]
    simp only
    split
    · rcases hreq : requestNewPage (markFullCurrentIfNeeded s) with ⟨e1, s2⟩
      have hc := requestNewPage_err (markFullCurrentIfNeeded s)
      rw [hreq] at hc
      simp only at hc
      rcases hc with rfl | rfl
      · simp only
        split
        · simp
        · exact ih _ _ _ _ _
      · simp
    · split
      · simp
      · set t := (getCurrentPage s).getVarDataTailroom with ht
        set c := if rs > t then t else rs with hcdef
        rcases hw : (getCurrentPage s).writeItem nsIndex .BLOB_DATA key
            ((data.drop off).take c) (chunkStart + cc) ⟨0, 0, 0⟩ with ⟨e2, p1⟩
        have hc2 := pageWriteItem_err (getCurrentPage s) nsIndex .BLOB_DATA key
            ((data.drop off).take c) (chunkStart + cc) ⟨0, 0, 0⟩
        rw [hw] at hc2
        simp only at hc2
        rcases hc2 with rfl | rfl | rfl
        · simp only
          rcases hstep : (if (rs - c ≠ 0 ∨ t - c < ENTRY_SIZE) then
              requestNewPage (markFullCurrentIfNeeded (setCurrentPage s p1))
            else (.OK, setCurrentPage s p1)) with ⟨e3, s2⟩
          have hc3 := stepReq_err (setCurrentPage s p1) (rs - c ≠ 0 ∨ t - c < ENTRY_SIZE)
          rw [hstep] at hc3
          simp only at hc3
          rcases hc3 with rfl | rfl
          · simp only
            split
            · rcases hwi : (getCurrentPage s2).writeItem nsIndex .BLOB_IDX key [] CHUNK_ANY
                  ⟨data.length, cc + 1, chunkStart⟩ with ⟨e4, p2⟩
              have hc4 := pageWriteItem_err (getCurrentPage s2) nsIndex .BLOB_IDX key [] CHUNK_ANY
                  ⟨data.length, cc + 1, chunkStart⟩
              rw [hwi] at hc4
              simp only at hc4
              rcases hc4 with rfl | rfl | rfl <;> simp
            · exact ih _ _ _ _ _
          · simp
        · simp
        · simp

/-! ## C6: the maxPages length check of writeMultiPageBlob -/

/-- C6: writeMultiPageBlob computes `maxPages = min(pageCount - 1, (CHUNK_ANY - 1) / 2)`
(with the uint32 wrap-around of the source's subtraction made explicit, and shown to
equal `pageCount - 1` whenever at least one page exists) and fails with VALUE_TOO_LONG,
writing nothing, exactly when the blob is longer than `maxPages * CHUNK_MAX_SIZE`;
shorter blobs are never rejected with VALUE_TOO_LONG. -/
theorem writeMultiPageBlob_length_check (s : Storage) (nsIndex key : Nat)
    (data : List Nat) (chunkStart : Nat) :
    (min ((getPageCount s + 4294967295) % 4294967296) ((CHUNK_ANY - 1) / 2) * CHUNK_MAX_SIZE
        < data.length →
      Storage.writeMultiPageBlob s nsIndex key data chunkStart =
        (false, { s with mLastError := Err.VALUE_TOO_LONG })) ∧
    (data.length ≤
        min ((getPageCount s + 4294967295) % 4294967296) ((CHUNK_ANY - 1) / 2) * CHUNK_MAX_SIZE →
      (Storage.writeMultiPageBlob s nsIndex key data chunkStart).2.mLastError ≠
        Err.VALUE_TOO_LONG) ∧
    (1 ≤ getPageCount s → getPageCount s ≤ 4294967296 →
      (getPageCount s + 4294967295) % 4294967296 = getPageCount s - 1) := by
  refine ⟨?_, ?_, ?_⟩
  · intro hlong
    unfold Storage.writeMultiPageBlob
    rw [if_pos hlong]
  · intro hfit
    unfold Storage.writeMultiPageBlob
    rw [if_neg (by omega)]
    rcases hloop : writeBlobLoop nsIndex key data chunkStart (data.length + 4) s 0
        data.length 0 [] with ⟨e, s1, up⟩
    have hcl := writeBlobLoop_err nsIndex key data chunkStart (data.length + 4) s 0
        data.length 0 []
    rw [hloop] at hcl
    simp only at hcl
    simp only
    split
    · rename_i he
      subst he
      simp
    · rw [rollbackChunks_mLastError]
      simp only
      rcases hcl with rfl | rfl | rfl | rfl <;> simp
  · intro h1 h2
    omega

/-- A two-page partition with nothing free: maxPages is 0 and a one-byte blob
is rejected with VALUE_TOO_LONG. -/
def c6State : Storage := ⟨[⟨.ACTIVE, []⟩], 0, [], [], .ACTIVE, .OK⟩

/-- C6 (witness): the length check evaluated at a concrete state where the
bound is zero and the blob has one byte. -/
theorem writeMultiPageBlob_length_check_witness :
    min ((getPageCount c6State + 4294967295) % 4294967296) ((CHUNK_ANY - 1) / 2) *
        CHUNK_MAX_SIZE < 1 ∧
    Storage.writeMultiPageBlob c6State 1 5 [9] VER_0_OFFSET =
      (false, { c6State with mLastError := Err.VALUE_TOO_LONG }) := by
  have h := (writeMultiPageBlob_length_check c6State 1 5 [9] VER_0_OFFSET).1
  exact ⟨by decide, h (by decide)⟩

/-! ## C7: state check of the public operations -/

/-- C7 (amended): writeItem, readItem, eraseItem, eraseNamespace,
eraseMultiPageBlob, createOrOpenNamespace, getItemDataSize and
calcEntriesInNamespace all fail with NOT_INITIALIZED, leaving the stored
state untouched, when the Storage state is not ACTIVE; fillStats however
performs no state check and reports statistics regardless. -/
theorem ops_not_active (s : Storage) (h : s.mState ≠ StorageSt.ACTIVE)
    (nsIndex : Nat) (datatype : ItemType) (key : Nat) (data : List Nat)
    (dataSize chunkStart nsName : Nat) (canCreate : Bool) :
    Storage.writeItem s nsIndex datatype key data =
      (false, { s with mLastError := .NOT_INITIALIZED }) ∧
    Storage.readItem s nsIndex datatype key dataSize =
      (false, { s with mLastError := .NOT_INITIALIZED }, []) ∧
    Storage.eraseItem s nsIndex datatype key =
      (false, { s with mLastError := .NOT_INITIALIZED }) ∧
    Storage.eraseNamespace s nsIndex =
      (false, { s with mLastError := .NOT_INITIALIZED }) ∧
    Storage.eraseMultiPageBlob s nsIndex key chunkStart =
      (false, { s with mLastError := .NOT_INITIALIZED }) ∧
    Storage.createOrOpenNamespace s nsName canCreate =
      (false, { s with mLastError := .NOT_INITIALIZED }, 0) ∧
    Storage.getItemDataSize s nsIndex datatype key =
      (false, { s with mLastError := .NOT_INITIALIZED }, 0) ∧
    Storage.calcEntriesInNamespace s nsIndex =
      (false, { s with mLastError := .NOT_INITIALIZED }, 0) ∧
    (Storage.fillStats s).1 = true ∧
    (Storage.fillStats s).2.1 = { s with mLastError := .OK } := by
  refine ⟨?_, ?_, ?_, ?_, ?_, ?_, ?_, ?_, ?_, ?_⟩
  · unfold Storage.writeItem; rw [if_pos h]
  · unfold Storage.readItem; rw [if_pos h]
  · unfold Storage.eraseItem; rw [if_pos h]
  · unfold Storage.eraseNamespace; rw [if_pos h]
  · unfold Storage.eraseMultiPageBlob; rw [if_pos h]
  · unfold Storage.createOrOpenNamespace; rw [if_pos h]
  · unfold Storage.getItemDataSize; rw [if_pos h]
  · unfold Storage.calcEntriesInNamespace; rw [if_pos h]
  · unfold Storage.fillStats pageManagerFillStats; simp
  · unfold Storage.fillStats pageManagerFillStats; simp

/-- An uninitialized Storage with a stale lastError. -/
def c7State : Storage := ⟨[⟨.ACTIVE, []⟩], 0, [], [], .INVALID, .NOT_FOUND⟩

/-- C7 (counterexample): fillStats invoked on a Storage whose state is not
ACTIVE succeeds and does not set NOT_INITIALIZED, contradicting the claim
that every listed public operation fails with NOT_INITIALIZED. -/
theorem fillStats_skips_state_check :
    c7State.mState ≠ StorageSt.ACTIVE ∧
    (Storage.fillStats c7State).1 = true ∧
    (Storage.fillStats c7State).2.1.mLastError ≠ Err.NOT_INITIALIZED := by
  refine ⟨by decide, by decide, by decide⟩

/-- C7 (witness): the amended theorem applied at a concrete uninitialized
Storage. -/
theorem ops_not_active_witness :
    Storage.writeItem c7State 1 .U8 3 [7] =
      (false, { c7State with mLastError := .NOT_INITIALIZED }) ∧
    Storage.eraseNamespace c7State 1 =
      (false, { c7State with mLastError := .NOT_INITIALIZED }) ∧
    Storage.calcEntriesInNamespace c7State 1 =
      (false, { c7State with mLastError := .NOT_INITIALIZED }, 0) := by
  have h := ops_not_active c7State (by decide) 1 .U8 3 [7] 1 VER_ANY 9 true
  exact ⟨h.1, h.2.2.2.1, h.2.2.2.2.2.2.2.1⟩

/-! ## C1: rollback of a failed multi-page blob write -/

/-- The previously stored blob index of the C1 scenario: version 0, one
chunk of one byte. -/
def c1OldIdx : EItem := ⟨1, .BLOB_IDX, 5, CHUNK_ANY, [], ⟨1, 1, VER_0_OFFSET⟩, .WRITTEN⟩

/-- The previously stored version-0 chunk (it lives on the current page). -/
def c1OldChunk : EItem := ⟨1, .BLOB_DATA, 5, 0, [42], ⟨0, 0, 0⟩, .WRITTEN⟩

/-- Unrelated filler item occupying one entry. -/
def c1Filler : EItem := ⟨1, .U8, 99, CHUNK_ANY, [0], ⟨0, 0, 0⟩, .WRITTEN⟩

/-- The C1 scenario: the old index sits on a FULL page, the old chunk plus
122 fillers sit on the ACTIVE current page (124 of 126 entries used, so
the tailroom is exactly 32 bytes), and no further page is obtainable. -/
def c1State : Storage :=
  ⟨[⟨.FULL, [c1OldIdx]⟩, ⟨.ACTIVE, c1OldChunk :: List.replicate 122 c1Filler⟩],
   0, [], [0, 255, 1], .ACTIVE, .OK⟩

/-- C1 (failing evaluation): overwriting the version-0 blob writes the new
chunk with chunkIndex = VER_1_OFFSET, and when the write then fails
(no page left for the index), the rollback loop of Storage.cpp lines
252-258 erases chunkIndex 0, 1, ... instead of chunkStart + n: the newly
written chunk with chunkIndex 128 survives WRITTEN, while the
pre-existing version-0 chunk that happened to live on the same page is
erased — the stored state is changed and the new chunks are not removed,
contradicting the claim (the old BLOB_IDX itself stays visible). -/
theorem blob_rollback_wrong_chunk_indices :
    (Storage.writeItem c1State 1 .BLOB 5 (List.replicate 32 9)).1 = false ∧
    (Storage.writeItem c1State 1 .BLOB 5 (List.replicate 32 9)).2.mLastError =
      Err.NOT_ENOUGH_SPACE ∧
    (((Storage.writeItem c1State 1 .BLOB 5 (List.replicate 32 9)).2.mPages.getD 1
        dummyPage).items.countP
      (fun it => decide (it.status = .WRITTEN ∧ it.datatype = .BLOB_DATA ∧
        it.chunkIndex = VER_1_OFFSET))) = 1 ∧
    (((Storage.writeItem c1State 1 .BLOB 5 (List.replicate 32 9)).2.mPages.getD 1
        dummyPage).items.countP
      (fun it => decide (it.status = .WRITTEN ∧ it.datatype = .BLOB_DATA ∧
        it.chunkIndex = VER_0_OFFSET))) = 0 ∧
    (Storage.findItem (Storage.writeItem c1State 1 .BLOB 5 (List.replicate 32 9)).2
      ⟨1, .BLOB_IDX, some 5, CHUNK_ANY, VER_ANY⟩).isSome = true := by
  decide

/-! ## C4: write elision -/

theorem findItemInPages_getD (q : Query) (pages : List Page) :
    ∀ (i pi : Nat) (it : EItem), Storage.findItemInPages q pages i = some (pi, it) →
      i ≤ pi ∧ ∃ pos, (pages.getD (pi - i) dummyPage).findItem q 0 = some (pos, it) := by
  induction pages with
  | nil => intro i pi it h; simp [Storage.findItemInPages] at h
  | cons p rest ih =>
    intro i pi it h
    rw [Storage.findItemInPages] at h
    rcases hp : p.findItem q 0 with _ | ⟨pos, it1⟩ <;> rw [hp] at h
    · have := ih (i + 1) pi it h
      rcases this with ⟨hle, pos1, hfind⟩
      refine ⟨by omega, pos1, ?_⟩
      have : pi - i = (pi - (i + 1)) + 1 := by omega
      rw [this]
      simpa using hfind
    · simp only [Option.some.injEq, Prod.mk.injEq] at h
      rcases h with ⟨rfl, rfl⟩
      exact ⟨le_refl _, pos, by simpa using hp⟩

theorem storageFindItem_page (s : Storage) (q : Query) (pi : Nat) (it : EItem)
    (h : Storage.findItem s q = some (pi, it)) :
    ∃ pos, (s.mPages.getD pi dummyPage).findItem q 0 = some (pos, it) := by
  have := findItemInPages_getD q s.mPages 0 pi it h
  simpa using this.2

theorem pageCmpItem_data (p : Page) (q : Query) (expected : List Nat) (pos : Nat) (it : EItem)
    (hfind : p.findItem q 0 = some (pos, it))
    (hcmp : p.cmpItem q expected = .OK) : it.data = expected := by
  unfold Page.cmpItem at hcmp
  rw [hfind] at hcmp
  simp only at hcmp
  by_cases h : it.data = expected
  · exact h
  · rw [if_neg h] at hcmp
    exact absurd hcmp (by simp)

/-- Concatenation of the chunk payloads of the stored blob family
`(nsIndex, key)` with the given chunk start, as the blob reader walks
them (the value a reader following the index would obtain). -/
def chunkConcat (s : Storage) (nsIndex key chunkStart : Nat) : Nat → Nat → Option (List Nat)
  | 0, _ => some []
  | n + 1, chunkNum =>
    match Storage.findItem s ⟨nsIndex, .BLOB_DATA, some key, chunkStart + chunkNum, VER_ANY⟩ with
    | none => none
    | some (_, it) =>
      (chunkConcat s nsIndex key chunkStart n (chunkNum + 1)).map (it.data ++ ·)

theorem cmpChunksLoop_concat (s : Storage) (nsIndex key : Nat) (data : List Nat)
    (chunkStart : Nat) (n : Nat) :
    ∀ (chunkNum offset : Nat),
      cmpChunksLoop s nsIndex key data chunkStart n chunkNum offset = .OK →
      ∃ bytes, chunkConcat s nsIndex key chunkStart n chunkNum = some bytes ∧
        bytes = (data.drop offset).take bytes.length := by
  induction n with
  | zero => intro chunkNum offset _; exact ⟨[], rfl, by simp⟩
  | succ m ih =>
    intro chunkNum offset h
    rw [cmpChunksLoop] at h
    rcases hf : Storage.findItem s
        ⟨nsIndex, .BLOB_DATA, some key, chunkStart + chunkNum, VER_ANY⟩ with _ | ⟨pi, it⟩ <;>
      rw [hf] at h
    · exact absurd h (by simp)
    · simp only at h
      cases hcmp : (s.mPages.getD pi dummyPage).cmpItem
          ⟨nsIndex, .BLOB_DATA, some key, chunkStart + chunkNum, VER_ANY⟩
          ((data.drop offset).take it.data.length)
      case OK =>
        rw [hcmp] at h
        simp only at h
        rcases storageFindItem_page s _ pi it hf with ⟨pos, hpage⟩
        have hdata := pageCmpItem_data _ _ _ pos it hpage hcmp
        rcases ih (chunkNum + 1) (offset + it.data.length) h with ⟨bytes1, hcc, hb1⟩
        refine ⟨it.data ++ bytes1, ?_, ?_⟩
        · rw [chunkConcat, hf]
          simp [hcc]
        · have h1 : (data.drop (offset + it.data.length)) = (data.drop offset).drop it.data.length := by
            rw [List.drop_drop]
          rw [h1] at hb1
          have h2 : (data.drop offset).take (it.data.length + bytes1.length) =
              (data.drop offset).take it.data.length ++
                ((data.drop offset).drop it.data.length).take bytes1.length := by
            rw [List.take_add]
          simp only [List.length_append]
          rw [h2, ← hdata, ← hb1]
      all_goals rw [hcmp] at h; exact absurd h (by simp)

/-- C4: writing an already-stored value again performs no flash program
or erase.  For scalar and string items: when the pre-existing item is
found and cmpItem reports equality, writeItem returns success with the
stored state untouched.  For blobs: when a BLOB_IDX is visible and
cmpMultiPageBlob reports equality, writeItem returns success with the
state untouched; moreover the comparison really is against the chunk
family selected by the visible BLOB_IDX — when it succeeds, the bytes a
reader following that index obtains are exactly the bytes passed in. -/
theorem writeItem_elision (s : Storage) (nsIndex : Nat) (datatype : ItemType)
    (key : Nat) (data : List Nat) (hstate : s.mState = StorageSt.ACTIVE) :
    (∀ fpi it, datatype ≠ .BLOB →
      Storage.findItem s ⟨nsIndex, datatype, some key, CHUNK_ANY, VER_ANY⟩ = some (fpi, it) →
      (s.mPages.getD fpi dummyPage).cmpItem
          ⟨nsIndex, datatype, some key, CHUNK_ANY, VER_ANY⟩ data = .OK →
      Storage.writeItem s nsIndex datatype key data = (true, { s with mLastError := .OK })) ∧
    (∀ fpi it e,
      Storage.findItem s ⟨nsIndex, .BLOB_IDX, some key, CHUNK_ANY, VER_ANY⟩ = some (fpi, it) →
      Storage.cmpMultiPageBlob s nsIndex key data = (true, e) →
      Storage.writeItem s nsIndex .BLOB key data = (true, { s with mLastError := e })) ∧
    (∀ fpi it e,
      Storage.findItem s ⟨nsIndex, .BLOB_IDX, some key, CHUNK_ANY, VER_ANY⟩ = some (fpi, it) →
      Storage.cmpMultiPageBlob s nsIndex key data = (true, e) →
      (∃ bytes, chunkConcat s nsIndex key it.blobIndex.chunkStart it.blobIndex.chunkCount 0 =
          some bytes ∧ bytes.length = data.length) →
      chunkConcat s nsIndex key it.blobIndex.chunkStart it.blobIndex.chunkCount 0 =
        some data) := by
  refine ⟨?_, ?_, ?_⟩
  · intro fpi it hty hfound hcmp
    unfold Storage.writeItem
    rw [if_neg (by simp [hstate])]
    simp only [if_neg hty, hfound]
    rw [if_pos hcmp]
  · intro fpi it e hfound hcmp
    unfold Storage.writeItem
    rw [if_neg (by simp [hstate])]
    simp only [if_pos rfl, reduceIte, hfound, hcmp]
  · intro fpi it e hfound hcmp hwf
    unfold Storage.cmpMultiPageBlob at hcmp
    rw [hfound] at hcmp
    simp only at hcmp
    by_cases hlen : data.length ≠ it.blobIndex.dataSize
    · rw [if_pos hlen] at hcmp
      exact absurd hcmp (by simp)
    · rw [if_neg hlen] at hcmp
      cases hloop : cmpChunksLoop s nsIndex key data it.blobIndex.chunkStart
          it.blobIndex.chunkCount 0 0
      ·
        rcases cmpChunksLoop_concat s nsIndex key data it.blobIndex.chunkStart
            it.blobIndex.chunkCount 0 0 hloop with ⟨bytes, hcc, hb⟩
        rcases hwf with ⟨bytes1, hcc1, hlen1⟩
        rw [hcc] at hcc1
        rcases Option.some.injEq _ _ ▸ hcc1 with rfl
        rw [hcc]
        congr 1
        rw [hb]
        simp only [List.drop_zero] at hb ⊢
        rw [hlen1]
        exact List.take_length _
      all_goals rw [hloop] at hcmp
      all_goals exact absurd hcmp (by simp)

/-- Concrete state for the elision witness: one page holding a scalar, a
blob index and its single chunk. -/
def c4Scalar : EItem := ⟨1, .U8, 3, CHUNK_ANY, [7], ⟨0, 0, 0⟩, .WRITTEN⟩

/-- The blob index of the C4 witness. -/
def c4Idx : EItem := ⟨1, .BLOB_IDX, 5, CHUNK_ANY, [], ⟨1, 1, VER_0_OFFSET⟩, .WRITTEN⟩

/-- The single chunk of the C4 witness. -/
def c4Chunk : EItem := ⟨1, .BLOB_DATA, 5, 0, [42], ⟨0, 0, 0⟩, .WRITTEN⟩

/-- The Storage of the C4 witness. -/
def c4State : Storage :=
  ⟨[⟨.ACTIVE, [c4Scalar, c4Idx, c4Chunk]⟩], 1, [], [0, 255, 1], .ACTIVE, .OK⟩

/-- C4 (witness): re-writing the stored scalar and the stored blob both
return success with the state untouched, and the comparison was made
against the chunks selected by the visible index. -/
theorem writeItem_elision_witness :
    Storage.writeItem c4State 1 .U8 3 [7] = (true, { c4State with mLastError := .OK }) ∧
    Storage.writeItem c4State 1 .BLOB 5 [42] = (true, { c4State with mLastError := .OK }) ∧
    chunkConcat c4State 1 5 VER_0_OFFSET 1 0 = some [42] := by
  have ha := (writeItem_elision c4State 1 .U8 3 [7] (by decide)).1
  have hb := (writeItem_elision c4State 1 .BLOB 5 [42] (by decide)).2.1
  have hc := (writeItem_elision c4State 1 .BLOB 5 [42] (by decide)).2.2
  exact ⟨ha 0 c4Scalar (by decide) (by decide) (by decide),
         hb 0 c4Idx .OK (by decide) (by decide),
         hc 0 c4Idx .OK (by decide) (by decide) ⟨[42], by decide, by decide⟩⟩

/-! ## C5: namespace creation and index exhaustion -/

theorem scanFreeNs_all_used (usage : List Nat) (fuel : Nat) :
    ∀ ns, ns ≤ 255 → 255 - ns ≤ fuel →
      (∀ i, ns ≤ i → i < 255 → i ∈ usage) →
      scanFreeNs usage fuel ns = 255 := by
  induction fuel with
  | zero =>
    intro ns h1 h2 _
    have : ns = 255 := by omega
    subst this
    rfl
  | succ m ih =>
    intro ns h1 h2 hall
    rw [scanFreeNs]
    by_cases hlt : ns < 255
    · rw [if_pos hlt, if_pos (hall ns (le_refl _) hlt)]
      exact ih (ns + 1) (by omega) (by omega) (fun i hi h255 => hall i (by omega) h255)
    · rw [if_neg hlt]
      omega

theorem scanFreeNs_least_free (usage : List Nat) (fuel : Nat) :
    ∀ ns n0, ns ≤ n0 → n0 < 255 → n0 ∉ usage →
      (∀ j, ns ≤ j → j < n0 → j ∈ usage) →
      n0 - ns < fuel →
      scanFreeNs usage fuel ns = n0 := by
  induction fuel with
  | zero => intro ns n0 _ _ _ _ h; omega
  | succ m ih =>
    intro ns n0 h1 h2 hfree hused hfuel
    rw [scanFreeNs]
    rw [if_pos (by omega)]
    by_cases heq : ns = n0
    · subst heq
      rw [if_neg hfree]
    · rw [if_pos (hused ns (le_refl _) (by omega))]
      exact ih (ns + 1) n0 (by omega) h2 hfree (fun j hj hjn => hused j (by omega) hjn) (by omega)

theorem createNs_all_used (s : Storage) (nsName : Nat)
    (hstate : s.mState = StorageSt.ACTIVE)
    (habsent : s.mNamespaces.find? (fun e => e.mName == nsName) = none)
    (hall : ∀ i, 1 ≤ i → i < 255 → i ∈ s.mNamespaceUsage) :
    Storage.createOrOpenNamespace s nsName true =
      (false, { s with mLastError := .NOT_ENOUGH_SPACE }, 0) := by
  unfold Storage.createOrOpenNamespace
  rw [if_neg (by simp [hstate]), habsent]
  simp only [Bool.not_true, if_neg]
  rw [scanFreeNs_all_used s.mNamespaceUsage 255 1 (by omega) (by omega)
    (fun i hi h255 => hall i hi h255)]
  rfl

theorem createNs_least_free (s : Storage) (nsName : Nat)
    (hstate : s.mState = StorageSt.ACTIVE)
    (habsent : s.mNamespaces.find? (fun e => e.mName == nsName) = none)
    (n0 : Nat) (h1 : 1 ≤ n0) (h2 : n0 < 255) (hfree : n0 ∉ s.mNamespaceUsage)
    (hused : ∀ j, 1 ≤ j → j < n0 → j ∈ s.mNamespaceUsage)
    (s1 : Storage) (hw : Storage.writeItem s NS_INDEX .U8 nsName [n0] = (true, s1)) :
    Storage.createOrOpenNamespace s nsName true =
      (true, { s1 with
          mNamespaceUsage := n0 :: s1.mNamespaceUsage,
          mNamespaces := s1.mNamespaces ++ [⟨nsName, n0⟩],
          mLastError := .OK }, n0) := by
  unfold Storage.createOrOpenNamespace
  rw [if_neg (by simp [hstate]), habsent]
  simp only [Bool.not_true, if_neg]
  rw [scanFreeNs_least_free s.mNamespaceUsage 255 1 n0 h1 h2 hfree
    (fun j hj hjn => hused j hj hjn) (by omega)]
  rw [hw, if_neg (show ¬ (n0 = 255) from by omega)]
  rfl

/-- C5 (amended): createOrOpenNamespace with canCreate and an absent name
scans the bitmap for the lowest free index in [1,254]; when every index
is in use it fails with NOT_ENOUGH_SPACE without attempting any write
and with the state unchanged; when a lowest free index n0 exists it
persists (NS_INDEX, U8, name, n0) via writeItem, marks the bit and
appends the in-memory entry, returning n0 (so the 254th distinct
namespace succeeds and the 255th fails).  Provided the persisting
writeItem succeeds, failing with NOT_ENOUGH_SPACE is equivalent to all
indices 1..254 being in use; without that proviso the equivalence
fails, since writeItem itself can run out of flash and its
NOT_ENOUGH_SPACE is propagated (see the counterexample). -/
theorem createOrOpenNamespace_spec (s : Storage) (nsName : Nat)
    (hstate : s.mState = StorageSt.ACTIVE)
    (habsent : s.mNamespaces.find? (fun e => e.mName == nsName) = none) :
    ((∀ i, 1 ≤ i → i < 255 → i ∈ s.mNamespaceUsage) →
      Storage.createOrOpenNamespace s nsName true =
        (false, { s with mLastError := .NOT_ENOUGH_SPACE }, 0)) ∧
    (∀ n0, 1 ≤ n0 → n0 < 255 → n0 ∉ s.mNamespaceUsage →
      (∀ j, 1 ≤ j → j < n0 → j ∈ s.mNamespaceUsage) →
      ∀ s1, Storage.writeItem s NS_INDEX .U8 nsName [n0] = (true, s1) →
      Storage.createOrOpenNamespace s nsName true =
        (true, { s1 with
            mNamespaceUsage := n0 :: s1.mNamespaceUsage,
            mNamespaces := s1.mNamespaces ++ [⟨nsName, n0⟩],
            mLastError := .OK }, n0)) ∧
    ((∀ v, v < 255 → (Storage.writeItem s NS_INDEX .U8 nsName [v]).1 = true) →
      (((Storage.createOrOpenNamespace s nsName true).1 = false ∧
        (Storage.createOrOpenNamespace s nsName true).2.1.mLastError = .NOT_ENOUGH_SPACE) ↔
        (∀ i, 1 ≤ i → i < 255 → i ∈ s.mNamespaceUsage))) := by
  refine ⟨createNs_all_used s nsName hstate habsent,
          fun n0 a b c d s1 e => createNs_least_free s nsName hstate habsent n0 a b c d s1 e,
          ?_⟩
  intro hwOK
  constructor
  · rintro ⟨hfalse, _⟩
    intro i hi1 hi255
    by_contra hnot
    classical
    have hP : ∃ n, 1 ≤ n ∧ n < 255 ∧ n ∉ s.mNamespaceUsage := ⟨i, hi1, hi255, hnot⟩
    rcases Nat.find_spec hP with ⟨hn1, hn2, hnfree⟩
    have hleast : ∀ j, 1 ≤ j → j < Nat.find hP → j ∈ s.mNamespaceUsage := by
      intro j hj1 hjlt
      by_contra hjn
      exact absurd ⟨hj1, by omega, hjn⟩ (Nat.find_min hP hjlt)
    rcases hres : Storage.writeItem s NS_INDEX .U8 nsName [Nat.find hP] with ⟨b, s1⟩
    have hb := hwOK (Nat.find hP) hn2
    rw [hres] at hb
    simp only at hb
    subst hb
    have hcreate := createNs_least_free s nsName hstate habsent (Nat.find hP) hn1 hn2
      hnfree hleast s1 hres
    rw [hcreate] at hfalse
    exact absurd hfalse (by simp)
  · intro hall
    rw [createNs_all_used s nsName hstate habsent hall]
    exact ⟨rfl, rfl⟩

/-- A Storage whose only page is completely full and with no obtainable
page left, while namespace indices are all free. -/
def c5FullFiller : EItem := ⟨1, .U8, 99, CHUNK_ANY, [0], ⟨0, 0, 0⟩, .WRITTEN⟩

/-- The flash-exhausted Storage of the C5 counterexample. -/
def c5FullState : Storage :=
  ⟨[⟨.ACTIVE, List.replicate 126 c5FullFiller⟩], 0, [], [], .ACTIVE, .OK⟩

/-- C5 (counterexample): createOrOpenNamespace can fail with
NOT_ENOUGH_SPACE although almost every index in [1,254] is free — the
persisting writeItem finds the flash exhausted and its
NOT_ENOUGH_SPACE is propagated — refuting the claimed "exactly when all
indices 1..254 are in use". -/
theorem createOrOpenNamespace_enospc_without_exhaustion :
    (Storage.createOrOpenNamespace c5FullState 77 true).1 = false ∧
    (Storage.createOrOpenNamespace c5FullState 77 true).2.1.mLastError = .NOT_ENOUGH_SPACE ∧
    ¬ (∀ i, 1 ≤ i → i < 255 → i ∈ c5FullState.mNamespaceUsage) := by
  refine ⟨by decide, by decide, fun h => ?_⟩
  have := h 1 (by omega) (by omega)
  simp [c5FullState] at this

/-- The nearly fresh Storage of the C5 witness: usage bitmap holding only
the reserved indices 0 and 255. -/
def c5State : Storage := ⟨[⟨.ACTIVE, []⟩], 1, [], [0, 255], .ACTIVE, .OK⟩

/-- The state after the namespace item of the C5 witness is persisted. -/
def c5State1 : Storage :=
  ⟨[⟨.ACTIVE, [⟨0, .U8, 9, CHUNK_ANY, [1], ⟨0, 0, 0⟩, .WRITTEN⟩]⟩], 1, [], [0, 255], .ACTIVE, .OK⟩

/-- C5 (witness): at a fresh Storage the lowest free index 1 is assigned,
persisted, marked and appended; at a Storage with every index in use the
call fails with NOT_ENOUGH_SPACE. -/
theorem createOrOpenNamespace_spec_witness :
    Storage.createOrOpenNamespace c5State 9 true =
      (true, { c5State1 with
          mNamespaceUsage := 1 :: c5State1.mNamespaceUsage,
          mNamespaces := c5State1.mNamespaces ++ [⟨9, 1⟩],
          mLastError := .OK }, 1) ∧
    Storage.createOrOpenNamespace
        ⟨[⟨.ACTIVE, []⟩], 1, [], List.range 255, .ACTIVE, .OK⟩ 9 true =
      (false, { (⟨[⟨.ACTIVE, []⟩], 1, [], List.range 255, .ACTIVE, .OK⟩ : Storage) with
          mLastError := .NOT_ENOUGH_SPACE }, 0) := by
  constructor
  · exact (createOrOpenNamespace_spec c5State 9 (by decide) (by decide)).2.1 1
      (by omega) (by omega) (by decide) (fun j hj1 hj2 => absurd hj2 (by omega))
      c5State1 (by decide)
  · exact (createOrOpenNamespace_spec _ 9 (by decide) (by decide)).1
      (fun i h1 h2 => by simpa [List.mem_range] using h2)

/-! ## Counting WRITTEN matches (infrastructure for C9, C10, C2) -/

/-- Number of WRITTEN items of a page matching a query. -/
def Page.countMatches (p : Page) (q : Query) : Nat :=
  p.items.countP (fun it => decide (itemMatches q it))

/-- Number of WRITTEN items matching a query across all pages. -/
def Storage.countMatches (s : Storage) (q : Query) : Nat :=
  (s.mPages.map (fun p => p.countMatches q)).sum

theorem pageFindFrom_none (q : Query) :
    ∀ (items : List EItem) (pos : Nat),
      pageFindFrom q items pos 0 = none → ∀ x ∈ items, ¬ itemMatches q x := by
  intro items
  induction items with
  | nil => intro pos _ x hx; simp at hx
  | cons it rest ih =>
    intro pos h x hx
    rw [pageFindFrom] at h
    by_cases hm : itemMatches q it
    · rw [if_pos ⟨Nat.zero_le _, hm⟩] at h
      exact absurd h (by simp)
    · rcases List.mem_cons.mp hx with rfl | hx1
      · exact hm
      · have h2 : pageFindFrom q rest (pos + it.span) 0 = none := by
          by_cases hc : (0 : Nat) ≤ pos ∧ itemMatches q it
          · exact absurd hc.2 hm
          · rw [if_neg hc] at h; exact h
        exact ih (pos + it.span) h2 x hx1

theorem pageFindFrom_some (q : Query) :
    ∀ (items : List EItem) (pos c p : Nat) (it : EItem),
      pageFindFrom q items pos c = some (p, it) → it ∈ items ∧ itemMatches q it := by
  intro items
  induction items with
  | nil => intro pos c p it h; simp [pageFindFrom] at h
  | cons x rest ih =>
    intro pos c p it h
    rw [pageFindFrom] at h
    by_cases hc : c ≤ pos ∧ itemMatches q x
    · rw [if_pos hc] at h
      simp only [Option.some.injEq, Prod.mk.injEq] at h
      rcases h with ⟨_, rfl⟩
      exact ⟨List.mem_cons_self _ _, hc.2⟩
    · rw [if_neg hc] at h
      have := ih (pos + x.span) c p it h
      exact ⟨List.mem_cons_of_mem _ this.1, this.2⟩

theorem pageCountMatches_zero (p : Page) (q : Query)
    (h : p.findItem q 0 = none) : p.countMatches q = 0 := by
  unfold Page.countMatches
  rw [List.countP_eq_zero]
  intro it hit
  simpa using pageFindFrom_none q p.items 0 h it hit

theorem storageFindItem_none_count (s : Storage) (q : Query)
    (h : Storage.findItem s q = none) : Storage.countMatches s q = 0 := by
  unfold Storage.findItem at h
  unfold Storage.countMatches
  have : ∀ (pages : List Page) (i : Nat), Storage.findItemInPages q pages i = none →
      ((pages.map (fun p => p.countMatches q)).sum = 0) := by
    intro pages
    induction pages with
    | nil => intro i _; simp
    | cons p rest ih =>
      intro i h1
      rw [Storage.findItemInPages] at h1
      rcases hp : p.findItem q 0 with _ | ⟨pos, it⟩ <;> rw [hp] at h1
      · simp only [List.map_cons, List.sum_cons]
        rw [pageCountMatches_zero p q hp, ih (i + 1) h1]
      · exact absurd h1 (by simp)
  exact this s.mPages 0 h

theorem eraseFirstAux_decomp (q : Query) :
    ∀ (items items2 : List EItem), eraseFirstAux q items = some items2 →
      ∃ pre it post, items = pre ++ it :: post ∧
        items2 = pre ++ ({it with status := .ERASED}) :: post ∧
        itemMatches q it ∧ ∀ x ∈ pre, ¬ itemMatches q x := by
  intro items
  induction items with
  | nil => intro items2 h; simp [eraseFirstAux] at h
  | cons x rest ih =>
    intro items2 h
    rw [eraseFirstAux] at h
    by_cases hm : itemMatches q x
    · rw [if_pos hm] at h
      simp only [Option.some.injEq] at h
      exact ⟨[], x, rest, by simp, by simp [h.symm], hm, by simp⟩
    · rw [if_neg hm] at h
      rcases ho : eraseFirstAux q rest with _ | rest2 <;> rw [ho] at h
      · exact absurd h (by simp)
      · simp at h
        rcases ih rest2 ho with ⟨pre, it, post, h1, h2, h3, h4⟩
        refine ⟨x :: pre, it, post, by simp [h1], by simp [← h, h2], h3, ?_⟩
        intro y hy
        rcases List.mem_cons.mp hy with rfl | hy1
        · exact hm
        · exact h4 y hy1

theorem erased_not_matches (q2 : Query) (it : EItem) :
    ¬ itemMatches q2 ({it with status := EntryState.ERASED}) := by
  intro h
  have := h.1
  simp at this

theorem countP_eraseFirstAux_self (q : Query) (items items2 : List EItem)
    (h : eraseFirstAux q items = some items2) :
    items.countP (fun it => decide (itemMatches q it)) =
      items2.countP (fun it => decide (itemMatches q it)) + 1 := by
  rcases eraseFirstAux_decomp q items items2 h with ⟨pre, it, post, rfl, rfl, hm, _⟩
  rw [List.countP_append, List.countP_append,
      List.countP_cons_of_pos _ post (decide_eq_true hm),
      List.countP_cons_of_neg _ post
        (fun hh => erased_not_matches q it (of_decide_eq_true hh))]
  omega

theorem countP_eraseFirstAux_other (q q2 : Query) (items items2 : List EItem)
    (h : eraseFirstAux q items = some items2)
    (hcross : ∀ it : EItem, itemMatches q it → ¬ itemMatches q2 it) :
    items2.countP (fun it => decide (itemMatches q2 it)) =
      items.countP (fun it => decide (itemMatches q2 it)) := by
  rcases eraseFirstAux_decomp q items items2 h with ⟨pre, it, post, rfl, rfl, hm, _⟩
  rw [List.countP_append, List.countP_append,
      List.countP_cons_of_neg _ post
        (fun hh => erased_not_matches q2 it (of_decide_eq_true hh)),
      List.countP_cons_of_neg _ post (fun hh => hcross it hm (of_decide_eq_true hh))]

theorem countP_eraseFirstAux_le (q q2 : Query) (items items2 : List EItem)
    (h : eraseFirstAux q items = some items2) :
    items2.countP (fun it => decide (itemMatches q2 it)) ≤
      items.countP (fun it => decide (itemMatches q2 it)) := by
  rcases eraseFirstAux_decomp q items items2 h with ⟨pre, it, post, rfl, rfl, _, _⟩
  rw [List.countP_append, List.countP_append,
      List.countP_cons_of_neg _ post
        (fun hh => erased_not_matches q2 it (of_decide_eq_true hh)),
      List.countP_cons]
  omega

theorem pageEraseItem_ok (p : Page) (q : Query) (p1 : Page)
    (h : p.eraseItem q = (.OK, p1)) :
    ∃ items2, eraseFirstAux q p.items = some items2 ∧ p1 = { p with items := items2 } := by
  unfold Page.eraseItem at h
  rcases he : eraseFirstAux q p.items with _ | items2 <;> rw [he] at h
  · exact absurd h (by simp)
  · simp only [Prod.mk.injEq] at h
    exact ⟨items2, rfl, h.2.symm⟩

theorem eraseFirstAux_isSome (q : Query) :
    ∀ (items : List EItem), (∃ x ∈ items, itemMatches q x) →
      (eraseFirstAux q items).isSome := by
  intro items
  induction items with
  | nil => intro h; rcases h with ⟨x, hx, _⟩; simp at hx
  | cons y rest ih =>
    intro h
    rw [eraseFirstAux]
    by_cases hm : itemMatches q y
    · rw [if_pos hm]; simp
    · rw [if_neg hm]
      rcases h with ⟨x, hx, hmx⟩
      rcases List.mem_cons.mp hx with rfl | hx1
      · exact absurd hmx hm
      · have := ih ⟨x, hx1, hmx⟩
        rcases ho : eraseFirstAux q rest with _ | r2 <;> rw [ho] at this <;> simp_all

theorem pageFind_some_erase_ok (p : Page) (q : Query) (pos : Nat) (it : EItem)
    (h : p.findItem q 0 = some (pos, it)) :
    ∃ p1, p.eraseItem q = (.OK, p1) := by
  have hmem := pageFindFrom_some q p.items 0 0 pos it h
  have hs := eraseFirstAux_isSome q p.items ⟨it, hmem.1, hmem.2⟩
  unfold Page.eraseItem
  rcases he : eraseFirstAux q p.items with _ | items2 <;> rw [he] at hs
  · simp at hs
  · exact ⟨_, rfl⟩

theorem sum_map_set (f : Page → Nat) :
    ∀ (l : List Page) (i : Nat) (p1 : Page), i < l.length →
      ((l.set i p1).map f).sum + f (l.getD i dummyPage) = (l.map f).sum + f p1 := by
  intro l
  induction l with
  | nil => intro i p1 h; simp at h
  | cons x rest ih =>
    intro i p1 h
    cases i with
    | zero => simp [List.set]; omega
    | succ j =>
      simp only [List.set, List.map_cons, List.sum_cons, List.getD_cons_succ]
      have := ih j p1 (by simpa using h)
      omega

/-- The state after replacing page `pi`. -/
def eraseAt (s : Storage) (pi : Nat) (p1 : Page) : Storage :=
  { s with mPages := s.mPages.set pi p1 }

theorem storage_erase_count_self (s : Storage) (pi : Nat) (q : Query) (p1 : Page)
    (hpi : pi < s.mPages.length)
    (h : (s.mPages.getD pi dummyPage).eraseItem q = (.OK, p1)) :
    Storage.countMatches s q = Storage.countMatches (eraseAt s pi p1) q + 1 := by
  rcases pageEraseItem_ok _ q p1 h with ⟨items2, he, rfl⟩
  unfold Storage.countMatches eraseAt
  have hsum := sum_map_set (fun p => p.countMatches q) s.mPages pi
    { s.mPages.getD pi dummyPage with items := items2 } hpi
  have hpage : (s.mPages.getD pi dummyPage).countMatches q =
      ({ s.mPages.getD pi dummyPage with items := items2 } : Page).countMatches q + 1 :=
    countP_eraseFirstAux_self q _ items2 he
  simp only [Page.countMatches] at hsum hpage ⊢
  omega

theorem storage_erase_count_other (s : Storage) (pi : Nat) (q q2 : Query) (p1 : Page)
    (hpi : pi < s.mPages.length)
    (h : (s.mPages.getD pi dummyPage).eraseItem q = (.OK, p1))
    (hcross : ∀ it : EItem, itemMatches q it → ¬ itemMatches q2 it) :
    Storage.countMatches (eraseAt s pi p1) q2 = Storage.countMatches s q2 := by
  rcases pageEraseItem_ok _ q p1 h with ⟨items2, he, rfl⟩
  unfold Storage.countMatches eraseAt
  have hsum := sum_map_set (fun p => p.countMatches q2) s.mPages pi
    { s.mPages.getD pi dummyPage with items := items2 } hpi
  have hpage : ({ s.mPages.getD pi dummyPage with items := items2 } : Page).countMatches q2 =
      (s.mPages.getD pi dummyPage).countMatches q2 :=
    countP_eraseFirstAux_other q q2 _ items2 he hcross
  simp only [Page.countMatches] at hsum hpage ⊢
  omega

theorem storage_erase_count_le (s : Storage) (pi : Nat) (q q2 : Query) (p1 : Page)
    (hpi : pi < s.mPages.length)
    (h : (s.mPages.getD pi dummyPage).eraseItem q = (.OK, p1)) :
    Storage.countMatches (eraseAt s pi p1) q2 ≤ Storage.countMatches s q2 := by
  rcases pageEraseItem_ok _ q p1 h with ⟨items2, he, rfl⟩
  unfold Storage.countMatches eraseAt
  have hsum := sum_map_set (fun p => p.countMatches q2) s.mPages pi
    { s.mPages.getD pi dummyPage with items := items2 } hpi
  have hpage : ({ s.mPages.getD pi dummyPage with items := items2 } : Page).countMatches q2 ≤
      (s.mPages.getD pi dummyPage).countMatches q2 :=
    countP_eraseFirstAux_le q q2 _ items2 he
  simp only [Page.countMatches] at hsum hpage ⊢
  omega

theorem storageFindItem_lt (s : Storage) (q : Query) (pi : Nat) (it : EItem)
    (h : Storage.findItem s q = some (pi, it)) : pi < s.mPages.length := by
  unfold Storage.findItem at h
  have haux : ∀ (pages : List Page) (i : Nat),
      Storage.findItemInPages q pages i = some (pi, it) → pi < i + pages.length := by
    intro pages
    induction pages with
    | nil => intro i h1; simp [Storage.findItemInPages] at h1
    | cons p rest ih =>
      intro i h1
      rw [Storage.findItemInPages] at h1
      rcases hp : p.findItem q 0 with _ | ⟨pos, it1⟩ <;> rw [hp] at h1
      · have := ih (i + 1) h1
        simp only [List.length_cons]
        omega
      · simp only [Option.some.injEq, Prod.mk.injEq] at h1
        simp only [List.length_cons]
        omega
  have := haux s.mPages 0 h
  omega

theorem type_cross (q q2 : Query) (hq : q.ty ≠ .ANY) (hq2 : q2.ty ≠ .ANY)
    (hne : q.ty ≠ q2.ty) (it : EItem) (h : itemMatches q it) : ¬ itemMatches q2 it := by
  intro h2
  rcases h.2.2.1 with h3 | h3
  · exact hq h3
  · rcases h2.2.2.1 with h4 | h4
    · exact hq2 h4
    · exact hne (h3.symm.trans h4)

theorem chunk_match_cross (nsIndex key cs : Nat) (a b : Nat) (ha : cs + a ≤ 254)
    (hb : cs + b ≤ 254) (hne : a ≠ b) (it : EItem)
    (h : itemMatches ⟨nsIndex, .BLOB_DATA, some key, cs + a, VER_ANY⟩ it) :
    ¬ itemMatches ⟨nsIndex, .BLOB_DATA, some key, cs + b, VER_ANY⟩ it := by
  intro h2
  rcases h.2.2.2.2.1 with h3 | h3
  · simp only [CHUNK_ANY] at h3; omega
  · rcases h2.2.2.2.2.1 with h4 | h4
    · simp only [CHUNK_ANY] at h4; omega
    · simp only at h3 h4; omega

theorem eraseChunksLoop_spec (nsIndex key cs : Nat) (n : Nat) :
    ∀ (chunkNum : Nat) (s : Storage), cs + chunkNum + n ≤ 255 →
      (eraseChunksLoop nsIndex key cs s chunkNum n).1 = true ∧
      (∀ q2 : Query, Storage.countMatches (eraseChunksLoop nsIndex key cs s chunkNum n).2 q2 ≤
        Storage.countMatches s q2) ∧
      (∀ q2 : Query,
        (∀ m it, chunkNum ≤ m → m < chunkNum + n →
          itemMatches ⟨nsIndex, .BLOB_DATA, some key, cs + m, VER_ANY⟩ it →
          ¬ itemMatches q2 it) →
        Storage.countMatches (eraseChunksLoop nsIndex key cs s chunkNum n).2 q2 =
          Storage.countMatches s q2) ∧
      (∀ m, chunkNum ≤ m → m < chunkNum + n →
        Storage.countMatches s ⟨nsIndex, .BLOB_DATA, some key, cs + m, VER_ANY⟩ ≤ 1 →
        Storage.countMatches (eraseChunksLoop nsIndex key cs s chunkNum n).2
          ⟨nsIndex, .BLOB_DATA, some key, cs + m, VER_ANY⟩ = 0) := by
  induction n with
  | zero =>
    intro chunkNum s _
    rw [eraseChunksLoop]
    exact ⟨rfl, fun q2 => le_refl _, fun q2 _ => rfl, fun m h1 h2 _ => by omega⟩
  | succ nn ih =>
    intro chunkNum s hb
    rw [eraseChunksLoop]
    rcases hf : Storage.findItem s
        ⟨nsIndex, .BLOB_DATA, some key, cs + chunkNum, VER_ANY⟩ with _ | ⟨pi, itf⟩
    · -- chunk absent at this ordinal: plain recursion on the same state
      have hzero := storageFindItem_none_count s _ hf
      rcases ih (chunkNum + 1) s (by omega) with ⟨ih1, ih2, ih3, ih4⟩
      refine ⟨ih1, ih2, ?_, ?_⟩
      · intro q2 hcross
        exact ih3 q2 (fun m it hm1 hm2 => hcross m it (by omega) (by omega))
      · intro m hm1 hm2 hcnt
        by_cases hmeq : m = chunkNum
        · subst hmeq
          exact Nat.le_zero.mp (hzero ▸ ih2 _)
        · exact ih4 m (by omega) (by omega) hcnt
    · -- chunk found: it is erased, then the loop continues
      rcases storageFindItem_page s _ pi itf hf with ⟨pos, hpage⟩
      rcases pageFind_some_erase_ok _ _ pos itf hpage with ⟨p1, herase⟩
      simp only
      rw [herase]
      have hpi := storageFindItem_lt s _ pi itf hf
      have hself := storage_erase_count_self s pi _ p1 hpi herase
      have hle := fun q2 => storage_erase_count_le s pi
        ⟨nsIndex, .BLOB_DATA, some key, cs + chunkNum, VER_ANY⟩ q2 p1 hpi herase
      have hother := fun q2 hcross => storage_erase_count_other s pi
        ⟨nsIndex, .BLOB_DATA, some key, cs + chunkNum, VER_ANY⟩ q2 p1 hpi herase hcross
      rcases ih (chunkNum + 1) (eraseAt s pi p1) (by omega) with ⟨ih1, ih2, ih3, ih4⟩
      refine ⟨ih1, ?_, ?_, ?_⟩
      · intro q2
        exact le_trans (ih2 q2) (hle q2)
      · intro q2 hcross
        have h1 := ih3 q2 (fun m it hm1 hm2 => hcross m it (by omega) (by omega))
        have h2 := hother q2 (fun it hit => hcross chunkNum it (by omega) (by omega) hit)
        exact h1.trans h2
      · intro m hm1 hm2 hcnt
        by_cases hmeq : m = chunkNum
        · subst hmeq
          have h0 : Storage.countMatches (eraseAt s pi p1)
              ⟨nsIndex, .BLOB_DATA, some key, cs + m, VER_ANY⟩ = 0 := by omega
          exact Nat.le_zero.mp (h0 ▸ ih2 _)
        · have hpres : Storage.countMatches (eraseAt s pi p1)
              ⟨nsIndex, .BLOB_DATA, some key, cs + m, VER_ANY⟩ =
              Storage.countMatches s ⟨nsIndex, .BLOB_DATA, some key, cs + m, VER_ANY⟩ :=
            hother _ (fun it hit =>
              chunk_match_cross nsIndex key cs chunkNum m (by omega) (by omega)
                (fun hh => hmeq hh.symm) it hit)
          exact ih4 m (by omega) (by omega) (hpres ▸ hcnt)

/-! ## C10: eraseItem with a non-BLOB datatype on a multi-page blob -/

/-- C10: when eraseItem is called with a datatype other than BLOB (for
example ANY) and the first match is a BLOB_DATA or BLOB_IDX item, the
whole multi-page blob for (nsIndex, key) is erased — eraseItem reduces
to eraseMultiPageBlob, which erases the index first and then every
chunk of the covered range: afterwards (under the mount invariant that
at most one WRITTEN item exists per tuple) no WRITTEN BLOB_IDX and no
WRITTEN covered BLOB_DATA chunk for (nsIndex, key) remains. -/
theorem eraseItem_whole_blob (s : Storage) (nsIndex : Nat) (datatype : ItemType) (key : Nat)
    (hstate : s.mState = StorageSt.ACTIVE) (hty : datatype ≠ .BLOB)
    (pi : Nat) (it : EItem)
    (hfound : Storage.findItem s ⟨nsIndex, datatype, some key, CHUNK_ANY, VER_ANY⟩ =
      some (pi, it))
    (hblob : it.datatype = .BLOB_DATA ∨ it.datatype = .BLOB_IDX) :
    Storage.eraseItem s nsIndex datatype key = Storage.eraseMultiPageBlob s nsIndex key VER_ANY ∧
    ∀ pj itj,
      Storage.findItem s ⟨nsIndex, .BLOB_IDX, some key, CHUNK_ANY, VER_ANY⟩ = some (pj, itj) →
      itj.blobIndex.chunkStart + itj.blobIndex.chunkCount ≤ 255 →
      Storage.countMatches s ⟨nsIndex, .BLOB_IDX, some key, CHUNK_ANY, VER_ANY⟩ ≤ 1 →
      (∀ m, m < itj.blobIndex.chunkCount →
        Storage.countMatches s
          ⟨nsIndex, .BLOB_DATA, some key, itj.blobIndex.chunkStart + m, VER_ANY⟩ ≤ 1) →
      (Storage.eraseMultiPageBlob s nsIndex key VER_ANY).1 = true ∧
      Storage.countMatches (Storage.eraseMultiPageBlob s nsIndex key VER_ANY).2
        ⟨nsIndex, .BLOB_IDX, some key, CHUNK_ANY, VER_ANY⟩ = 0 ∧
      ∀ m, m < itj.blobIndex.chunkCount →
        Storage.countMatches (Storage.eraseMultiPageBlob s nsIndex key VER_ANY).2
          ⟨nsIndex, .BLOB_DATA, some key, itj.blobIndex.chunkStart + m, VER_ANY⟩ = 0 := by
  constructor
  · unfold Storage.eraseItem
    rw [if_neg (by simp [hstate]), if_neg hty, hfound]
    simp only
    rw [if_pos hblob]
  · intro pj itj hfoundj hbound hcidx hccnt
    unfold Storage.eraseMultiPageBlob
    rw [if_neg (by simp [hstate]), hfoundj]
    simp only
    rcases storageFindItem_page s _ pj itj hfoundj with ⟨pos, hpage⟩
    rcases pageFind_some_erase_ok _ _ pos itj hpage with ⟨p1, herase⟩
    rw [herase]
    simp only
    have hpj := storageFindItem_lt s _ pj itj hfoundj
    have hself := storage_erase_count_self s pj
      ⟨nsIndex, .BLOB_IDX, some key, CHUNK_ANY, VER_ANY⟩ p1 hpj herase
    rcases eraseChunksLoop_spec nsIndex key itj.blobIndex.chunkStart itj.blobIndex.chunkCount
      0 (eraseAt s pj p1) (by omega) with ⟨l1, l2, l3, l4⟩
    refine ⟨l1, ?_, ?_⟩
    · have hz : Storage.countMatches (eraseAt s pj p1)
          ⟨nsIndex, .BLOB_IDX, some key, CHUNK_ANY, VER_ANY⟩ = 0 := by omega
      have hpres := l3 ⟨nsIndex, .BLOB_IDX, some key, CHUNK_ANY, VER_ANY⟩
        (fun m it2 _ _ hit2 =>
          type_cross ⟨nsIndex, .BLOB_DATA, some key, itj.blobIndex.chunkStart + m, VER_ANY⟩
            ⟨nsIndex, .BLOB_IDX, some key, CHUNK_ANY, VER_ANY⟩
            (by simp) (by simp) (by simp) it2 hit2)
      exact hpres.trans hz
    · intro m hm
      have hpresm : Storage.countMatches (eraseAt s pj p1)
          ⟨nsIndex, .BLOB_DATA, some key, itj.blobIndex.chunkStart + m, VER_ANY⟩ =
          Storage.countMatches s
          ⟨nsIndex, .BLOB_DATA, some key, itj.blobIndex.chunkStart + m, VER_ANY⟩ :=
        storage_erase_count_other s pj ⟨nsIndex, .BLOB_IDX, some key, CHUNK_ANY, VER_ANY⟩
          ⟨nsIndex, .BLOB_DATA, some key, itj.blobIndex.chunkStart + m, VER_ANY⟩ p1 hpj herase
          (fun it2 hit2 =>
            type_cross ⟨nsIndex, .BLOB_IDX, some key, CHUNK_ANY, VER_ANY⟩
              ⟨nsIndex, .BLOB_DATA, some key, itj.blobIndex.chunkStart + m, VER_ANY⟩
              (by simp) (by simp) (by simp) it2 hit2)
      have hle1 : Storage.countMatches (eraseAt s pj p1)
          ⟨nsIndex, .BLOB_DATA, some key, itj.blobIndex.chunkStart + m, VER_ANY⟩ ≤ 1 := by
        have := hccnt m hm
        omega
      exact l4 m (by omega) (by omega) hle1

/-- The C10 witness blob: a version-1 two-chunk blob whose first chunk is
on an earlier FULL page. -/
def c10Idx : EItem := ⟨1, .BLOB_IDX, 5, CHUNK_ANY, [], ⟨3, 2, VER_1_OFFSET⟩, .WRITTEN⟩

/-- First chunk of the C10 witness. -/
def c10Ch0 : EItem := ⟨1, .BLOB_DATA, 5, 128, [1, 2], ⟨0, 0, 0⟩, .WRITTEN⟩

/-- Second chunk of the C10 witness. -/
def c10Ch1 : EItem := ⟨1, .BLOB_DATA, 5, 129, [3], ⟨0, 0, 0⟩, .WRITTEN⟩

/-- The Storage of the C10 witness. -/
def c10State : Storage :=
  ⟨[⟨.FULL, [c10Ch0]⟩, ⟨.ACTIVE, [c10Idx, c10Ch1]⟩], 1, [], [0, 255, 1], .ACTIVE, .OK⟩

/-- C10 (witness): eraseItem with datatype ANY on the blob key reduces to
the multi-page erase and leaves no WRITTEN index and no WRITTEN chunk. -/
theorem eraseItem_whole_blob_witness :
    Storage.eraseItem c10State 1 .ANY 5 = Storage.eraseMultiPageBlob c10State 1 5 VER_ANY ∧
    (Storage.eraseMultiPageBlob c10State 1 5 VER_ANY).1 = true ∧
    Storage.countMatches (Storage.eraseMultiPageBlob c10State 1 5 VER_ANY).2
      ⟨1, .BLOB_IDX, some 5, CHUNK_ANY, VER_ANY⟩ = 0 ∧
    Storage.countMatches (Storage.eraseMultiPageBlob c10State 1 5 VER_ANY).2
      ⟨1, .BLOB_DATA, some 5, VER_1_OFFSET + 1, VER_ANY⟩ = 0 := by
  have h := eraseItem_whole_blob c10State 1 .ANY 5 (by decide) (by decide) 0 c10Ch0
    (by decide) (by decide)
  have h2 := h.2 1 c10Idx (by decide) (by decide) (by decide)
    (fun m hm => by
      have : m = 0 ∨ m = 1 := by
        simp only [c10Idx] at hm
        omega
      rcases this with rfl | rfl <;> decide)
  exact ⟨h.1, h2.1, h2.2.1, h2.2.2 1 (by decide)⟩

/-! ## Count preservation along the multi-page blob write (infrastructure for C9) -/

theorem list_set_of_length_le {α : Type} : ∀ (l : List α) (n : Nat) (a : α),
    l.length ≤ n → l.set n a = l := by
  intro l
  induction l with
  | nil => intro n a _; rfl
  | cons x rest ih =>
    intro n a h
    cases n with
    | zero => simp at h
    | succ m => simp only [List.set]; rw [ih m a (by simpa using h)]

theorem setCurrentPage_count (s : Storage) (p1 : Page) (q : Query)
    (hpc : p1.countMatches q = (getCurrentPage s).countMatches q) :
    Storage.countMatches (setCurrentPage s p1) q = Storage.countMatches s q := by
  unfold setCurrentPage Storage.countMatches
  simp only
  rcases hnil : s.mPages with _ | ⟨x, rest⟩
  · rfl
  · have hlen : s.mPages.length - 1 < s.mPages.length := by
      rw [hnil]; simp
    have hsum := sum_map_set (fun p => p.countMatches q) s.mPages (s.mPages.length - 1) p1 hlen
    have hcur : getCurrentPage s = s.mPages.getD (s.mPages.length - 1) dummyPage := rfl
    rw [hcur] at hpc
    rw [← hnil]
    simp only at hsum
    omega

theorem markFullCurrent_count (s : Storage) (q : Query) :
    Storage.countMatches (markFullCurrentIfNeeded s) q = Storage.countMatches s q := by
  unfold markFullCurrentIfNeeded
  split
  · exact setCurrentPage_count s _ q rfl
  · rfl

theorem requestNewPage_count (s : Storage) (q : Query) :
    Storage.countMatches (requestNewPage s).2 q = Storage.countMatches s q := by
  unfold requestNewPage
  split
  · rfl
  · unfold Storage.countMatches
    simp [Page.countMatches, freshPage]

theorem pageWriteItem_ok_shape (p : Page) (ns : Nat) (ty : ItemType) (key : Nat)
    (data : List Nat) (ci : Nat) (bi : BlobIndexInfo) (p1 : Page)
    (h : p.writeItem ns ty key data ci bi = (.OK, p1)) :
    p1 = { p with items := p.items ++ [⟨ns, ty, key, ci, data, bi, .WRITTEN⟩] } := by
  unfold Page.writeItem at h
  split at h
  · exact absurd h (by simp)
  · split at h
    · exact absurd h (by simp)
    · simp only [Prod.mk.injEq] at h
      exact h.2.symm

theorem pageWriteItem_fail_shape (p : Page) (ns : Nat) (ty : ItemType) (key : Nat)
    (data : List Nat) (ci : Nat) (bi : BlobIndexInfo) (e : Err) (p1 : Page)
    (h : p.writeItem ns ty key data ci bi = (e, p1)) (he : e ≠ .OK) : p1 = p := by
  unfold Page.writeItem at h
  split at h
  · simpa using (congrArg Prod.snd h).symm
  · split at h
    · simpa using (congrArg Prod.snd h).symm
    · exact absurd (congrArg Prod.fst h).symm (by simpa using he)

theorem pageWriteItem_count (p : Page) (ns : Nat) (ty : ItemType) (key : Nat)
    (data : List Nat) (ci : Nat) (bi : BlobIndexInfo) (p1 : Page) (q : Query)
    (h : p.writeItem ns ty key data ci bi = (.OK, p1))
    (hq : ¬ itemMatches q ⟨ns, ty, key, ci, data, bi, .WRITTEN⟩) :
    p1.countMatches q = p.countMatches q := by
  rw [pageWriteItem_ok_shape p ns ty key data ci bi p1 h]
  unfold Page.countMatches
  simp only [List.countP_append]
  have hz : List.countP (fun it => decide (itemMatches q it))
      [(⟨ns, ty, key, ci, data, bi, .WRITTEN⟩ : EItem)] = 0 := by
    simp [List.countP_cons, hq]
  rw [hz, Nat.add_zero]

theorem writeBlobLoop_count (nsIndex key : Nat) (data : List Nat) (chunkStart : Nat)
    (q : Query) (hq1 : q.ty ≠ .ANY) (hq2 : q.ty ≠ .BLOB_DATA) (hq3 : q.ty ≠ .BLOB_IDX)
    (fuel : Nat) :
    ∀ (s : Storage) (cc rs off : Nat) (up : List Nat),
      Storage.countMatches (writeBlobLoop nsIndex key data chunkStart fuel s cc rs off up).2.1 q =
        Storage.countMatches s q := by
  have hnomatch : ∀ (n1 k1 ci1 : Nat) (d1 : List Nat) (b1 : BlobIndexInfo) (ty1 : ItemType),
      ty1 = .BLOB_DATA ∨ ty1 = .BLOB_IDX →
      ¬ itemMatches q ⟨n1, ty1, k1, ci1, d1, b1, .WRITTEN⟩ := by
    intro n1 k1 ci1 d1 b1 ty1 hty1 hmm
    rcases hmm.2.2.1 with h3 | h3
    · exact hq1 h3
    · simp only at h3
      rcases hty1 with rfl | rfl
      · exact hq2 h3.symm
      · exact hq3 h3.symm
  induction fuel with
  | zero => intro s cc rs off up; rfl
  | succ n ih =>
    intro s cc rs off up
    rw [writeBlobLoop]
    simp only
    split
    · rcases hreq : requestNewPage (markFullCurrentIfNeeded s) with ⟨e1, s2⟩
      have hrc : Storage.countMatches s2 q = Storage.countMatches s q := by
        have h1 := requestNewPage_count (markFullCurrentIfNeeded s) q
        rw [hreq] at h1
        simp only at h1
        rw [h1]
        exact markFullCurrent_count s q
      cases e1
      case OK =>
        simp only
        split
        · exact hrc
        · rw [ih s2 cc rs off up, hrc]
      all_goals exact hrc
    · split
      · rfl
      · set t := (getCurrentPage s).getVarDataTailroom with ht
        set c := if rs > t then t else rs with hcdef
        rcases hw : (getCurrentPage s).writeItem nsIndex .BLOB_DATA key
            ((data.drop off).take c) (chunkStart + cc) ⟨0, 0, 0⟩ with ⟨e2, p1⟩
        have hpw := pageWriteItem_err (getCurrentPage s) nsIndex .BLOB_DATA key
            ((data.drop off).take c) (chunkStart + cc) ⟨0, 0, 0⟩
        rw [hw] at hpw
        simp only at hpw
        rcases hpw with rfl | rfl | rfl
        · have hs1c : Storage.countMatches (setCurrentPage s p1) q =
              Storage.countMatches s q :=
            setCurrentPage_count s p1 q
              (pageWriteItem_count _ _ _ _ _ _ _ _ q hw (hnomatch _ _ _ _ _ _ (Or.inl rfl)))
          simp only
          rcases hstep : (if (rs - c ≠ 0 ∨ t - c < ENTRY_SIZE) then
              requestNewPage (markFullCurrentIfNeeded (setCurrentPage s p1))
            else (.OK, setCurrentPage s p1)) with ⟨e3, s2⟩
          have hs2c : Storage.countMatches s2 q = Storage.countMatches s q := by
            by_cases hcnd : (rs - c ≠ 0 ∨ t - c < ENTRY_SIZE)
            · rw [if_pos hcnd] at hstep
              have h1 := requestNewPage_count (markFullCurrentIfNeeded (setCurrentPage s p1)) q
              rw [hstep] at h1
              simp only at h1
              rw [h1, markFullCurrent_count]
              exact hs1c
            · rw [if_neg hcnd] at hstep
              have h2 : s2 = setCurrentPage s p1 := by
                have := congrArg Prod.snd hstep
                simpa using this.symm
              rw [h2]
              exact hs1c
          cases e3
          case OK =>
            simp only
            split
            · rcases hwi : (getCurrentPage s2).writeItem nsIndex .BLOB_IDX key [] CHUNK_ANY
                  ⟨data.length, cc + 1, chunkStart⟩ with ⟨e4, p2⟩
              have hpw2 := pageWriteItem_err (getCurrentPage s2) nsIndex .BLOB_IDX key [] CHUNK_ANY
                  ⟨data.length, cc + 1, chunkStart⟩
              rw [hwi] at hpw2
              simp only at hpw2
              rcases hpw2 with rfl | rfl | rfl
              · simp only
                rw [setCurrentPage_count s2 p2 q
                  (pageWriteItem_count _ _ _ _ _ _ _ _ q hwi (hnomatch _ _ _ _ _ _ (Or.inr rfl)))]
                exact hs2c
              · simp only
                rw [pageWriteItem_fail_shape _ _ _ _ _ _ _ _ _ hwi (by simp)]
                rw [setCurrentPage_count s2 _ q rfl]
                exact hs2c
              · simp only
                rw [pageWriteItem_fail_shape _ _ _ _ _ _ _ _ _ hwi (by simp)]
                rw [setCurrentPage_count s2 _ q rfl]
                exact hs2c
            · rw [ih s2 (cc + 1) (rs - c) (off + c)
                (up ++ [(setCurrentPage s p1).mPages.length - 1])]
              exact hs2c
          all_goals simp only
          all_goals exact hs2c
        · simp only
          rw [pageWriteItem_fail_shape _ _ _ _ _ _ _ _ _ hw (by simp)]
          exact setCurrentPage_count s _ q rfl
        · simp only
          rw [pageWriteItem_fail_shape _ _ _ _ _ _ _ _ _ hw (by simp)]
          exact setCurrentPage_count s _ q rfl

theorem countMatches_setErr (s : Storage) (e : Err) (q : Query) :
    Storage.countMatches { s with mLastError := e } q = Storage.countMatches s q := rfl

theorem storageFindItem_some_count (s : Storage) (q : Query) (pi : Nat) (it : EItem)
    (h : Storage.findItem s q = some (pi, it)) : 1 ≤ Storage.countMatches s q := by
  unfold Storage.findItem at h
  unfold Storage.countMatches
  have haux : ∀ (pages : List Page) (i : Nat),
      Storage.findItemInPages q pages i = some (pi, it) →
      1 ≤ (pages.map (fun p => p.countMatches q)).sum := by
    intro pages
    induction pages with
    | nil => intro i h1; simp [Storage.findItemInPages] at h1
    | cons p rest ih =>
      intro i h1
      rw [Storage.findItemInPages] at h1
      rcases hp : p.findItem q 0 with _ | ⟨pos, it1⟩ <;> rw [hp] at h1
      · have := ih (i + 1) h1
        simp only [List.map_cons, List.sum_cons]
        omega
      · have hmem := pageFindFrom_some q p.items 0 0 pos it1 hp
        have hpos : 0 < p.countMatches q := by
          unfold Page.countMatches
          rw [List.countP_pos_iff]
          exact ⟨it1, hmem.1, by simpa using hmem.2⟩
        simp only [List.map_cons, List.sum_cons]
        omega
  exact haux s.mPages 0 h

theorem writeMultiPageBlob_count_ok (s : Storage) (ns key : Nat) (data : List Nat)
    (cs : Nat) (s1 : Storage) (q : Query)
    (hq1 : q.ty ≠ .ANY) (hq2 : q.ty ≠ .BLOB_DATA) (hq3 : q.ty ≠ .BLOB_IDX)
    (h : Storage.writeMultiPageBlob s ns key data cs = (true, s1)) :
    Storage.countMatches s1 q = Storage.countMatches s q := by
  unfold Storage.writeMultiPageBlob at h
  rcases hloop : writeBlobLoop ns key data cs (data.length + 4) s 0 data.length 0 []
    with ⟨e, s2, up⟩
  rw [hloop] at h
  simp only at h
  split at h
  · exact absurd (congrArg Prod.fst h).symm (by simp)
  · split at h
    · simp only [Prod.mk.injEq] at h
      rcases h with ⟨_, rfl⟩
      have hc := writeBlobLoop_count ns key data cs q hq1 hq2 hq3 (data.length + 4)
        s 0 data.length 0 []
      rw [hloop] at hc
      simp only at hc
      rw [countMatches_setErr]
      exact hc
    · exact absurd (congrArg Prod.fst h).symm (by simp)

/-- C9: writeItem called with datatype BLOB for a (nsIndex, key) that
has no BLOB_IDX but does have a legacy-format BLOB item (stored without
index): after the multi-page write succeeds, the legacy item is found
and erased, so no WRITTEN legacy BLOB item remains.  The count
hypothesis is the mount invariant that at most one WRITTEN item matches
the legacy tuple. -/
theorem writeItem_blob_erases_legacy (s : Storage) (ns key : Nat) (data : List Nat)
    (res : Bool) (s1 : Storage)
    (hidx : Storage.findItem s ⟨ns, .BLOB_IDX, some key, CHUNK_ANY, VER_ANY⟩ = none)
    (hleg : Storage.countMatches s ⟨ns, .BLOB, some key, CHUNK_ANY, VER_ANY⟩ ≤ 1)
    (hcall : Storage.writeItem s ns .BLOB key data = (res, s1))
    (hok : res = true) :
    Storage.countMatches s1 ⟨ns, .BLOB, some key, CHUNK_ANY, VER_ANY⟩ = 0 := by
  subst hok
  unfold Storage.writeItem at hcall
  by_cases hst : s.mState ≠ .ACTIVE
  · rw [if_pos hst] at hcall
    exact absurd (congrArg Prod.fst hcall) (by simp)
  · rw [if_neg hst] at hcall
    simp only [reduceIte, hidx] at hcall
    rcases hw : Storage.writeMultiPageBlob s ns key data VER_0_OFFSET with ⟨ok, sw⟩
    rw [hw] at hcall
    cases ok
    · simp only at hcall
      exact absurd (congrArg Prod.fst hcall) (by simp)
    · simp only at hcall
      have hpres : Storage.countMatches sw ⟨ns, .BLOB, some key, CHUNK_ANY, VER_ANY⟩ =
          Storage.countMatches s ⟨ns, .BLOB, some key, CHUNK_ANY, VER_ANY⟩ :=
        writeMultiPageBlob_count_ok s ns key data VER_0_OFFSET sw _
          (by simp) (by simp) (by simp) hw
      rcases hf : Storage.findItem sw ⟨ns, .BLOB, some key, CHUNK_ANY, VER_ANY⟩
        with _ | ⟨pi, it⟩
      · rw [hf] at hcall
        simp only [Option.map] at hcall
        unfold Storage.writeItemFinish at hcall
        simp only [Prod.mk.injEq] at hcall
        rcases hcall with ⟨_, rfl⟩
        rw [countMatches_setErr]
        exact storageFindItem_none_count sw _ hf
      · rw [hf] at hcall
        simp only [Option.map] at hcall
        unfold Storage.writeItemFinish at hcall
        simp only at hcall
        rcases storageFindItem_page sw _ pi it hf with ⟨pos, hpfind⟩
        rcases pageFind_some_erase_ok _ _ pos it hpfind with ⟨p2, herase⟩
        have hlt := storageFindItem_lt sw _ pi it hf
        have hsome := storageFindItem_some_count sw _ pi it hf
        have hself := storage_erase_count_self sw pi _ p2 hlt herase
        have hstep : (if (sw.mPages.getD pi dummyPage).state = .UNINITIALIZED ∨
              (sw.mPages.getD pi dummyPage).state = .INVALID then
            (Storage.findItem sw ⟨ns, .BLOB, some key, CHUNK_ANY, VER_ANY⟩).map Prod.fst
          else some pi) = some pi := by
          split
          · rw [hf]; rfl
          · rfl
        rw [hstep] at hcall
        simp only at hcall
        rw [herase] at hcall
        simp only [Prod.mk.injEq] at hcall
        rcases hcall with ⟨_, rfl⟩
        have hfin : Storage.countMatches
            { sw with mPages := sw.mPages.set pi p2, mLastError := Err.OK }
            ⟨ns, .BLOB, some key, CHUNK_ANY, VER_ANY⟩ =
            Storage.countMatches (eraseAt sw pi p2)
            ⟨ns, .BLOB, some key, CHUNK_ANY, VER_ANY⟩ := rfl
        omega

/-- Legacy-format BLOB item of the C9 witness (stored without index). -/
def c9Leg : EItem := ⟨1, .BLOB, 5, CHUNK_ANY, [7], ⟨0, 0, 0⟩, .WRITTEN⟩

/-- C9 witness state: one ACTIVE page holding only the legacy BLOB. -/
def c9State : Storage := ⟨[⟨.ACTIVE, [c9Leg]⟩], 1, [], [0, 255, 1], .ACTIVE, .OK⟩

/-- Witness for C9 at a concrete state: the legacy BLOB is initially the
only match, the write succeeds, and afterwards no legacy match is left. -/
theorem writeItem_blob_erases_legacy_witness :
    Storage.findItem c9State ⟨1, .BLOB_IDX, some 5, CHUNK_ANY, VER_ANY⟩ = none ∧
    Storage.countMatches c9State ⟨1, .BLOB, some 5, CHUNK_ANY, VER_ANY⟩ = 1 ∧
    (Storage.writeItem c9State 1 .BLOB 5 [9]).1 = true ∧
    Storage.countMatches (Storage.writeItem c9State 1 .BLOB 5 [9]).2
      ⟨1, .BLOB, some 5, CHUNK_ANY, VER_ANY⟩ = 0 :=
  ⟨by decide, by decide, by decide,
    writeItem_blob_erases_legacy c9State 1 5 [9]
      (Storage.writeItem c9State 1 .BLOB 5 [9]).1
      (Storage.writeItem c9State 1 .BLOB 5 [9]).2
      (by decide) (by decide) rfl (by decide)⟩

/- ## C3: PAGE_FULL never escapes to the caller -/

theorem pageEraseItem_err (p : Page) (q : Query) :
    (p.eraseItem q).1 = .OK ∨ (p.eraseItem q).1 = .NOT_FOUND := by
  unfold Page.eraseItem
  rcases eraseFirstAux q p.items with _ | items2 <;> simp

theorem pageReadItem_err (p : Page) (q : Query) :
    (p.readItem q).1 = .OK ∨ (p.readItem q).1 = .NOT_FOUND := by
  unfold Page.readItem
  rcases p.findItem q 0 with _ | ⟨pos, it⟩ <;> simp

theorem getD_getElem (l : List Page) (i : Nat) :
    (l[i]?).getD dummyPage = l.getD i dummyPage :=
  (List.getD_eq_getElem?_getD l i dummyPage).symm

theorem writeItemFinish_npf (s : Storage) (ns : Nat) (ty : ItemType) (key : Nat)
    (o : Option Nat) :
    ((Storage.writeItemFinish s ns ty key o).2).mLastError ≠ .PAGE_FULL := by
  rcases o with _ | pi
  · rw [Storage.writeItemFinish]
    simp
  · rw [Storage.writeItemFinish]
    by_cases hrec : (s.mPages.getD pi dummyPage).state = .UNINITIALIZED ∨
        (s.mPages.getD pi dummyPage).state = .INVALID
    · rw [if_pos hrec]
      rcases hf : Storage.findItem s ⟨ns, ty, some key, CHUNK_ANY, VER_ANY⟩ with _ | ⟨j, it⟩
      · simp
      · simp only [Option.map]
        rcases he : (s.mPages.getD j dummyPage).eraseItem
            ⟨ns, ty, some key, CHUNK_ANY, VER_ANY⟩ with ⟨e, p2⟩
        have hcls := pageEraseItem_err (s.mPages.getD j dummyPage)
          ⟨ns, ty, some key, CHUNK_ANY, VER_ANY⟩
        rw [he] at hcls
        simp only at hcls
        rcases hcls with rfl | rfl <;> simp
    · rw [if_neg hrec]
      simp only [getD_getElem]
      rcases he : (s.mPages.getD pi dummyPage).eraseItem
          ⟨ns, ty, some key, CHUNK_ANY, VER_ANY⟩ with ⟨e, p2⟩
      have hcls := pageEraseItem_err (s.mPages.getD pi dummyPage)
        ⟨ns, ty, some key, CHUNK_ANY, VER_ANY⟩
      rw [he] at hcls
      simp only at hcls
      rcases hcls with rfl | rfl <;> simp

theorem writeItemScalar_npf (s : Storage) (ns : Nat) (ty : ItemType) (key : Nat)
    (data : List Nat) (found : Option (Nat × EItem)) :
    ((Storage.writeItemScalar s ns ty key data found).2).mLastError ≠ .PAGE_FULL := by
  unfold Storage.writeItemScalar
  rcases hw : (getCurrentPage s).writeItem ns ty key data CHUNK_ANY ⟨0, 0, 0⟩ with ⟨e1, p1⟩
  have hcls := pageWriteItem_err (getCurrentPage s) ns ty key data CHUNK_ANY ⟨0, 0, 0⟩
  rw [hw] at hcls
  simp only at hcls
  rcases hcls with rfl | rfl | rfl
  · exact writeItemFinish_npf _ ns ty key _
  · simp
  · simp only
    rcases hr : requestNewPage (markFullCurrentIfNeeded s) with ⟨e2, s1⟩
    have hcls2 := requestNewPage_err (markFullCurrentIfNeeded s)
    rw [hr] at hcls2
    simp only at hcls2
    rcases hcls2 with rfl | rfl
    · simp only
      rcases hw2 : (getCurrentPage s1).writeItem ns ty key data CHUNK_ANY ⟨0, 0, 0⟩ with ⟨e3, p2⟩
      have hcls3 := pageWriteItem_err (getCurrentPage s1) ns ty key data CHUNK_ANY ⟨0, 0, 0⟩
      rw [hw2] at hcls3
      simp only at hcls3
      rcases hcls3 with rfl | rfl | rfl
      · exact writeItemFinish_npf _ ns ty key _
      · simp
      · simp
    · simp

theorem eraseChunksLoop_npf (ns key cs : Nat) (n : Nat) :
    ∀ (s : Storage) (cn : Nat),
      ((eraseChunksLoop ns key cs s cn n).2).mLastError ≠ .PAGE_FULL := by
  induction n with
  | zero => intro s cn; rw [eraseChunksLoop]; simp
  | succ m ih =>
    intro s cn
    rw [eraseChunksLoop]
    rcases hfi : Storage.findItem s ⟨ns, .BLOB_DATA, some key, cs + cn, VER_ANY⟩
      with _ | ⟨pi, it⟩
    · exact ih s (cn + 1)
    · simp only
      rcases he : (s.mPages.getD pi dummyPage).eraseItem
          ⟨ns, .BLOB_DATA, some key, cs + cn, VER_ANY⟩ with ⟨e, p1⟩
      have hcls := pageEraseItem_err (s.mPages.getD pi dummyPage)
        ⟨ns, .BLOB_DATA, some key, cs + cn, VER_ANY⟩
      rw [he] at hcls
      simp only at hcls
      rcases hcls with rfl | rfl
      · exact ih _ (cn + 1)
      · simp

theorem eraseMultiPageBlob_npf (s : Storage) (ns key cs : Nat) :
    ((Storage.eraseMultiPageBlob s ns key cs).2).mLastError ≠ .PAGE_FULL := by
  unfold Storage.eraseMultiPageBlob
  split
  · simp
  · rcases hfi : Storage.findItem s ⟨ns, .BLOB_IDX, some key, CHUNK_ANY, cs⟩ with _ | ⟨pi, it⟩
    · simp
    · simp only
      rcases he : (s.mPages.getD pi dummyPage).eraseItem
          ⟨ns, .BLOB_IDX, some key, CHUNK_ANY, cs⟩ with ⟨e, p1⟩
      have hcls := pageEraseItem_err (s.mPages.getD pi dummyPage)
        ⟨ns, .BLOB_IDX, some key, CHUNK_ANY, cs⟩
      rw [he] at hcls
      simp only at hcls
      rcases hcls with rfl | rfl
      · exact eraseChunksLoop_npf ns key _ _ _ 0
      · simp

theorem readChunksLoop_err (s : Storage) (ns key cs : Nat) (n : Nat) :
    ∀ (cn : Nat),
      (readChunksLoop s ns key cs n cn).1 = .OK ∨
      (readChunksLoop s ns key cs n cn).1 = .NOT_FOUND := by
  induction n with
  | zero => intro cn; rw [readChunksLoop]; simp
  | succ m ih =>
    intro cn
    rw [readChunksLoop]
    rcases hfi : Storage.findItem s ⟨ns, .BLOB_DATA, some key, cs + cn, VER_ANY⟩
      with _ | ⟨pi, it⟩
    · simp
    · simp only
      rcases hr : (s.mPages.getD pi dummyPage).readItem
          ⟨ns, .BLOB_DATA, some key, cs + cn, VER_ANY⟩ with ⟨e, bytes⟩
      have hcls := pageReadItem_err (s.mPages.getD pi dummyPage)
        ⟨ns, .BLOB_DATA, some key, cs + cn, VER_ANY⟩
      rw [hr] at hcls
      simp only at hcls
      rcases hcls with rfl | rfl
      · rcases hrec : readChunksLoop s ns key cs m (cn + 1) with ⟨e2, rest⟩
        have := ih (cn + 1)
        rw [hrec] at this
        simpa using this
      · simp

theorem readMultiPageBlob_npf (s : Storage) (ns key dataSize : Nat) :
    ((Storage.readMultiPageBlob s ns key dataSize).2.1).mLastError ≠ .PAGE_FULL := by
  unfold Storage.readMultiPageBlob
  rcases hfi : Storage.findItem s ⟨ns, .BLOB_IDX, some key, CHUNK_ANY, VER_ANY⟩
    with _ | ⟨pi, it⟩
  · simp
  · simp only
    split
    · simp
    · rcases hrl : readChunksLoop s ns key it.blobIndex.chunkStart it.blobIndex.chunkCount 0
        with ⟨e, bytes⟩
      have hcls := readChunksLoop_err s ns key it.blobIndex.chunkStart it.blobIndex.chunkCount 0
      rw [hrl] at hcls
      simp only at hcls
      rcases hcls with rfl | rfl
      · simp
      · simp

theorem readItem_npf (s : Storage) (ns : Nat) (ty : ItemType) (key : Nat) (dataSize : Nat) :
    ((Storage.readItem s ns ty key dataSize).2.1).mLastError ≠ .PAGE_FULL := by
  unfold Storage.readItem
  split
  · simp
  · by_cases hty : ty = .BLOB
    · rw [if_pos hty]
      rcases hrb : Storage.readMultiPageBlob s ns key dataSize with ⟨b, s1, bytes⟩
      have hnpf := readMultiPageBlob_npf s ns key dataSize
      rw [hrb] at hnpf
      simp only at hnpf
      cases b
      · simp only
        split
        · exact hnpf
        · rcases hfi : Storage.findItem s1 ⟨ns, ty, some key, CHUNK_ANY, VER_ANY⟩
            with _ | ⟨pi, it⟩
          · simp
          · simp only
            rcases hr : (s1.mPages.getD pi dummyPage).readItem
                ⟨ns, ty, some key, CHUNK_ANY, VER_ANY⟩ with ⟨e, bytes2⟩
            have hcls := pageReadItem_err (s1.mPages.getD pi dummyPage)
              ⟨ns, ty, some key, CHUNK_ANY, VER_ANY⟩
            rw [hr] at hcls
            simp only at hcls
            rcases hcls with rfl | rfl
            · simp
            · simp
      · simp only
        exact hnpf
    · rw [if_neg hty]
      simp only
      rcases hfi : Storage.findItem s ⟨ns, ty, some key, CHUNK_ANY, VER_ANY⟩
        with _ | ⟨pi, it⟩
      · simp
      · simp only
        rcases hr : (s.mPages.getD pi dummyPage).readItem
            ⟨ns, ty, some key, CHUNK_ANY, VER_ANY⟩ with ⟨e, bytes2⟩
        have hcls := pageReadItem_err (s.mPages.getD pi dummyPage)
          ⟨ns, ty, some key, CHUNK_ANY, VER_ANY⟩
        rw [hr] at hcls
        simp only at hcls
        rcases hcls with rfl | rfl
        · simp
        · simp

theorem cmpMultiPageBlob_true (s : Storage) (ns key : Nat) (data : List Nat) (e : Err)
    (h : Storage.cmpMultiPageBlob s ns key data = (true, e)) : e = .OK := by
  unfold Storage.cmpMultiPageBlob at h
  rcases hfi : Storage.findItem s ⟨ns, .BLOB_IDX, some key, CHUNK_ANY, VER_ANY⟩
    with _ | ⟨pi, it⟩ <;> rw [hfi] at h
  · exact absurd (congrArg Prod.fst h) (by simp)
  · simp only at h
    split at h
    · exact absurd (congrArg Prod.fst h) (by simp)
    · rcases hc : cmpChunksLoop s ns key data it.blobIndex.chunkStart it.blobIndex.chunkCount 0 0
        <;> rw [hc] at h <;> simp only at h
      · exact ((Prod.mk.injEq _ _ _ _).mp h).2.symm
      all_goals exact absurd (congrArg Prod.fst h) (by simp)

theorem writeItem_npf (s : Storage) (ns : Nat) (ty : ItemType) (key : Nat)
    (data : List Nat) :
    ((Storage.writeItem s ns ty key data).2).mLastError ≠ .PAGE_FULL := by
  unfold Storage.writeItem
  split
  · simp
  · by_cases hty : ty = .BLOB
    · subst hty
      simp only [reduceIte]
      rcases hfo : Storage.findItem s ⟨ns, .BLOB_IDX, some key, CHUNK_ANY, VER_ANY⟩
        with _ | ⟨fpi, it⟩
      · simp only
        rcases hw : Storage.writeMultiPageBlob s ns key data VER_0_OFFSET with ⟨b, s1⟩
        cases b
        · simp only
          by_cases hpf : s1.mLastError = .PAGE_FULL
          · rw [if_pos hpf]; simp
          · rw [if_neg hpf]; exact hpf
        · simp only
          exact writeItemFinish_npf s1 ns .BLOB key _
      · simp only
        rcases hcmp : Storage.cmpMultiPageBlob s ns key data with ⟨b, e⟩
        cases b
        · simp only
          rcases hre : (if (s.mPages.getD fpi dummyPage).state = .UNINITIALIZED ∨
                (s.mPages.getD fpi dummyPage).state = .INVALID then
              Storage.findItem s ⟨ns, .BLOB, some key, CHUNK_ANY, VER_ANY⟩
            else some (fpi, it)) with _ | ⟨j, it2⟩
          · simp
          · simp only
            rcases hw : Storage.writeMultiPageBlob s ns key data
                (if it2.blobIndex.chunkStart = VER_1_OFFSET then VER_0_OFFSET else VER_1_OFFSET)
              with ⟨b2, s1⟩
            cases b2
            · simp only
              by_cases hpf : s1.mLastError = .PAGE_FULL
              · rw [if_pos hpf]; simp
              · rw [if_neg hpf]; exact hpf
            · simp only
              rcases hemb : Storage.eraseMultiPageBlob s1 ns key it2.blobIndex.chunkStart
                with ⟨b3, s2⟩
              have hnpf := eraseMultiPageBlob_npf s1 ns key it2.blobIndex.chunkStart
              rw [hemb] at hnpf
              simp only at hnpf
              cases b3
              · simp only
                exact hnpf
              · simp only
                exact writeItemFinish_npf s2 ns .BLOB key none
        · simp only
          have he := cmpMultiPageBlob_true s ns key data e hcmp
          subst he
          simp
    · simp only [if_neg hty]
      rcases hfo : Storage.findItem s ⟨ns, ty, some key, CHUNK_ANY, VER_ANY⟩
        with _ | ⟨fpi, it⟩
      · simp only
        exact writeItemScalar_npf s ns ty key data none
      · simp only
        by_cases hc : (s.mPages.getD fpi dummyPage).cmpItem
            ⟨ns, ty, some key, CHUNK_ANY, VER_ANY⟩ data = .OK
        · rw [if_pos hc]; simp
        · rw [if_neg hc]
          exact writeItemScalar_npf s ns ty key data _

theorem eraseItem_npf (s : Storage) (ns : Nat) (ty : ItemType) (key : Nat) :
    ((Storage.eraseItem s ns ty key).2).mLastError ≠ .PAGE_FULL := by
  unfold Storage.eraseItem
  split
  · simp
  · split
    · exact eraseMultiPageBlob_npf s ns key VER_ANY
    · rcases hfi : Storage.findItem s ⟨ns, ty, some key, CHUNK_ANY, VER_ANY⟩ with _ | ⟨pi, it⟩
      · simp
      · simp only
        split
        · exact eraseMultiPageBlob_npf s ns key VER_ANY
        · rcases he : (s.mPages.getD pi dummyPage).eraseItem
              ⟨ns, ty, some key, CHUNK_ANY, VER_ANY⟩ with ⟨e, p1⟩
          have hcls := pageEraseItem_err (s.mPages.getD pi dummyPage)
            ⟨ns, ty, some key, CHUNK_ANY, VER_ANY⟩
          rw [he] at hcls
          simp only at hcls
          rcases hcls with rfl | rfl <;> simp

theorem eraseNamespace_npf (s : Storage) (ns : Nat) :
    ((Storage.eraseNamespace s ns).2).mLastError ≠ .PAGE_FULL := by
  unfold Storage.eraseNamespace
  split <;> simp

theorem getItemDataSize_npf (s : Storage) (ns : Nat) (ty : ItemType) (key : Nat) :
    ((Storage.getItemDataSize s ns ty key).2.1).mLastError ≠ .PAGE_FULL := by
  unfold Storage.getItemDataSize
  split
  · simp
  · rcases hfi : Storage.findItem s ⟨ns, ty, some key, CHUNK_ANY, VER_ANY⟩ with _ | ⟨pi, it⟩
    · simp only
      split
      · simp
      · rcases hfi2 : Storage.findItem s ⟨ns, .BLOB_IDX, some key, CHUNK_ANY, VER_ANY⟩
          with _ | ⟨pi2, it2⟩ <;> simp
    · simp

theorem calcEntriesInNamespace_npf (s : Storage) (ns : Nat) :
    ((Storage.calcEntriesInNamespace s ns).2.1).mLastError ≠ .PAGE_FULL := by
  unfold Storage.calcEntriesInNamespace
  split <;> simp

theorem fillStats_npf (s : Storage) :
    ((Storage.fillStats s).2.1).mLastError ≠ .PAGE_FULL := by
  unfold Storage.fillStats pageManagerFillStats
  simp

theorem createOrOpenNamespace_npf (s : Storage) (nsName : Nat) (canCreate : Bool) :
    ((Storage.createOrOpenNamespace s nsName canCreate).2.1).mLastError ≠ .PAGE_FULL := by
  unfold Storage.createOrOpenNamespace
  split
  · simp
  · rcases hfind : s.mNamespaces.find? (fun e => e.mName == nsName) with _ | e
    · rw [hfind]
      simp only
      cases canCreate
      · simp
      · rw [if_neg (fun h => h rfl)]
        by_cases hns : scanFreeNs s.mNamespaceUsage 255 1 = 255
        · rw [if_pos hns]; simp
        · rw [if_neg hns]
          rcases hw : Storage.writeItem s NS_INDEX .U8 nsName [scanFreeNs s.mNamespaceUsage 255 1]
            with ⟨b, s1⟩
          have hnpf := writeItem_npf s NS_INDEX .U8 nsName [scanFreeNs s.mNamespaceUsage 255 1]
          rw [hw] at hnpf
          simp only at hnpf
          cases b
          · simp only
            exact hnpf
          · simp
    · rw [hfind]
      simp

/-- C3: no public Storage operation surfaces PAGE_FULL to the caller:
after writeItem, readItem, eraseItem, eraseNamespace, eraseMultiPageBlob,
getItemDataSize, calcEntriesInNamespace, fillStats and
createOrOpenNamespace the stored error is never PAGE_FULL; inside
writeItem's single-item path a first PAGE_FULL from the current page
triggers markFull, requestNewPage and exactly one retry, a second
PAGE_FULL becoming NOT_ENOUGH_SPACE; and a PAGE_FULL escaping the
multi-page blob path is likewise converted to NOT_ENOUGH_SPACE. -/
theorem no_page_full_surfaced :
    (∀ (s : Storage) (ns : Nat) (ty : ItemType) (key : Nat) (data : List Nat),
      ((Storage.writeItem s ns ty key data).2).mLastError ≠ .PAGE_FULL) ∧
    (∀ (s : Storage) (ns : Nat) (ty : ItemType) (key dataSize : Nat),
      ((Storage.readItem s ns ty key dataSize).2.1).mLastError ≠ .PAGE_FULL) ∧
    (∀ (s : Storage) (ns : Nat) (ty : ItemType) (key : Nat),
      ((Storage.eraseItem s ns ty key).2).mLastError ≠ .PAGE_FULL) ∧
    (∀ (s : Storage) (ns : Nat),
      ((Storage.eraseNamespace s ns).2).mLastError ≠ .PAGE_FULL) ∧
    (∀ (s : Storage) (ns key cs : Nat),
      ((Storage.eraseMultiPageBlob s ns key cs).2).mLastError ≠ .PAGE_FULL) ∧
    (∀ (s : Storage) (ns : Nat) (ty : ItemType) (key : Nat),
      ((Storage.getItemDataSize s ns ty key).2.1).mLastError ≠ .PAGE_FULL) ∧
    (∀ (s : Storage) (ns : Nat),
      ((Storage.calcEntriesInNamespace s ns).2.1).mLastError ≠ .PAGE_FULL) ∧
    (∀ s : Storage, ((Storage.fillStats s).2.1).mLastError ≠ .PAGE_FULL) ∧
    (∀ (s : Storage) (nsName : Nat) (canCreate : Bool),
      ((Storage.createOrOpenNamespace s nsName canCreate).2.1).mLastError ≠ .PAGE_FULL) ∧
    (∀ (s : Storage) (ns : Nat) (ty : ItemType) (key : Nat) (data : List Nat)
        (found : Option (Nat × EItem)) (s1 : Storage) (p1 p2 : Page),
      (getCurrentPage s).writeItem ns ty key data CHUNK_ANY ⟨0, 0, 0⟩ = (.PAGE_FULL, p1) →
      requestNewPage (markFullCurrentIfNeeded s) = (.OK, s1) →
      (getCurrentPage s1).writeItem ns ty key data CHUNK_ANY ⟨0, 0, 0⟩ = (.PAGE_FULL, p2) →
      Storage.writeItemScalar s ns ty key data found =
        (false, { s1 with mLastError := .NOT_ENOUGH_SPACE })) ∧
    (∀ (s : Storage) (ns key : Nat) (data : List Nat) (s1 : Storage),
      s.mState = .ACTIVE →
      Storage.findItem s ⟨ns, .BLOB_IDX, some key, CHUNK_ANY, VER_ANY⟩ = none →
      Storage.writeMultiPageBlob s ns key data VER_0_OFFSET = (false, s1) →
      s1.mLastError = .PAGE_FULL →
      Storage.writeItem s ns .BLOB key data =
        (false, { s1 with mLastError := .NOT_ENOUGH_SPACE })) := by
  refine ⟨writeItem_npf, readItem_npf, eraseItem_npf, eraseNamespace_npf,
    eraseMultiPageBlob_npf, getItemDataSize_npf, calcEntriesInNamespace_npf,
    fillStats_npf, createOrOpenNamespace_npf, ?_, ?_⟩
  · intro s ns ty key data found s1 p1 p2 hw1 hreq hw2
    unfold Storage.writeItemScalar
    rw [hw1]
    simp only
    rw [hreq]
    simp only
    rw [hw2]
  · intro s ns key data s1 hst hidx hw herr
    unfold Storage.writeItem
    rw [if_neg (by simp [hst])]
    simp only [reduceIte, hidx]
    rw [hw]
    simp only
    rw [if_pos herr]

/-- C3 witness state: one empty ACTIVE page, one free page obtainable. -/
def c3State : Storage := ⟨[⟨.ACTIVE, []⟩], 1, [], [], .ACTIVE, .OK⟩

/-- C3 witness state after markFull and requestNewPage. -/
def c3State1 : Storage := ⟨[⟨.FULL, []⟩, ⟨.ACTIVE, []⟩], 0, [], [], .ACTIVE, .OK⟩

/-- Witness for C3 at a concrete input: a string too long for any page
draws PAGE_FULL twice (once on the current page, once on the fresh
page) and the caller sees NOT_ENOUGH_SPACE. -/
theorem c3_empty_page_full (p : Page) (hp : p = ⟨.ACTIVE, []⟩) :
    p.writeItem 1 .SZ 7 (List.replicate 4001 0) CHUNK_ANY ⟨0, 0, 0⟩ = (.PAGE_FULL, p) := by
  subst hp
  unfold Page.writeItem
  rw [if_neg (by decide)]
  rw [if_pos]
  simp only [Page.usedEntryCount, entrySpan, List.length_replicate, List.map_nil,
    List.sum_nil, ENTRY_COUNT, ENTRY_SIZE]
  omega

theorem no_page_full_surfaced_witness :
    Storage.writeItemScalar c3State 1 .SZ 7 (List.replicate 4001 0) none =
      (false, { c3State1 with mLastError := .NOT_ENOUGH_SPACE }) :=
  no_page_full_surfaced.2.2.2.2.2.2.2.2.2.1 c3State 1 .SZ 7 (List.replicate 4001 0) none
    c3State1 ⟨.ACTIVE, []⟩ ⟨.ACTIVE, []⟩
    (c3_empty_page_full _ rfl) (by decide) (c3_empty_page_full _ rfl)


/- ## C8: the iterator yields exactly the user items -/

/-- Entries consumed by a list of items (the cursor position after
scanning them). -/
def spanSum (l : List EItem) : Nat := (l.map EItem.span).sum

/-- The combined filter of ItemIterator::next (Storage.cpp 770-777):
the item matches the iterator's namespace/type query, is a user item,
and is not a non-version chunk of a multi-page blob. -/
def iterKeep (ns : Nat) (ty : ItemType) (it : EItem) : Bool :=
  decide (itemMatches ⟨ns, ty, none, CHUNK_ANY, VER_ANY⟩ it ∧
    isIterableItem it ∧ ¬ isMultipageBlob it)

theorem spanSum_nil : spanSum [] = 0 := rfl

theorem spanSum_cons (x : EItem) (l : List EItem) :
    spanSum (x :: l) = x.span + spanSum l := by simp [spanSum]

theorem spanSum_append (a b : List EItem) :
    spanSum (a ++ b) = spanSum a + spanSum b := by simp [spanSum]

theorem filter_nil_of_nomatch (ns : Nat) (ty : ItemType) :
    ∀ (l : List EItem),
      (∀ x ∈ l, ¬ itemMatches ⟨ns, ty, none, CHUNK_ANY, VER_ANY⟩ x) →
      l.filter (iterKeep ns ty) = [] := by
  intro l
  induction l with
  | nil => intro h; rfl
  | cons x rest ih =>
    intro h
    have hx : iterKeep ns ty x = false := by
      unfold iterKeep
      simp only [decide_eq_false_iff_not]
      intro hc
      exact h x (List.mem_cons_self x rest) hc.1
    rw [List.filter_cons, hx]
    simp only [Bool.false_eq_true, if_false]
    exact ih (fun y hy => h y (List.mem_cons_of_mem x hy))

theorem pageFindFrom_skip (q : Query) :
    ∀ (pre post : List EItem) (pos c : Nat), pos + spanSum pre ≤ c →
      pageFindFrom q (pre ++ post) pos c = pageFindFrom q post (pos + spanSum pre) c := by
  intro pre
  induction pre with
  | nil => intro post pos c h; simp [spanSum_nil]
  | cons x pre ih =>
    intro post pos c h
    rw [spanSum_cons] at h
    have hx : 1 ≤ x.span := EItem.span_pos x
    rw [List.cons_append, pageFindFrom]
    rw [if_neg (fun hc => absurd hc.1 (by omega))]
    have h2 := ih post (pos + x.span) c (by omega)
    rw [h2, spanSum_cons]
    have harith : pos + x.span + spanSum pre = pos + (x.span + spanSum pre) := by omega
    rw [harith]

theorem pageFindFrom_first (q : Query) :
    ∀ (post : List EItem) (pos c : Nat), c ≤ pos →
      (pageFindFrom q post pos c = none ∧ ∀ x ∈ post, ¬ itemMatches q x) ∨
      (∃ mid it rest, post = mid ++ it :: rest ∧ (∀ x ∈ mid, ¬ itemMatches q x) ∧
        itemMatches q it ∧ pageFindFrom q post pos c = some (pos + spanSum mid, it)) := by
  intro post
  induction post with
  | nil => intro pos c h; left; exact ⟨rfl, by simp⟩
  | cons x rest ih =>
    intro pos c h
    by_cases hm : itemMatches q x
    · right
      refine ⟨[], x, rest, rfl, by simp, hm, ?_⟩
      rw [pageFindFrom, if_pos ⟨h, hm⟩, spanSum_nil, Nat.add_zero]
    · rw [pageFindFrom, if_neg (fun hc => hm hc.2)]
      have hx : 1 ≤ x.span := EItem.span_pos x
      rcases ih (pos + x.span) c (by omega) with ⟨h1, h2⟩ |
        ⟨mid, it, rest2, hdec, hmid, hit, heq⟩
      · left
        refine ⟨h1, ?_⟩
        intro y hy
        rcases List.mem_cons.mp hy with rfl | hy2
        · exact hm
        · exact h2 y hy2
      · right
        refine ⟨x :: mid, it, rest2, by rw [hdec]; rfl, ?_, hit, ?_⟩
        · intro y hy
          rcases List.mem_cons.mp hy with rfl | hy2
          · exact hm
          · exact hmid y hy2
        · rw [heq, spanSum_cons]
          have harith : pos + x.span + spanSum mid = pos + (x.span + spanSum mid) := by omega
          rw [harith]

theorem iterKeep_false_of_skip (ns : Nat) (ty : ItemType) (it : EItem)
    (h : ¬ (isIterableItem it ∧ ¬ isMultipageBlob it)) : iterKeep ns ty it = false := by
  unfold iterKeep
  simp only [decide_eq_false_iff_not]
  intro hc
  exact h ⟨hc.2.1, hc.2.2⟩

theorem iterInnerLoop_spec (ns : Nat) (ty : ItemType) :
    ∀ (fuel : Nat) (post pre : List EItem), post.length < fuel →
      (iterInnerLoop ns ty (pre ++ post) fuel (spanSum pre) = none ∧
        post.filter (iterKeep ns ty) = []) ∨
      (∃ mid it rest, post = mid ++ it :: rest ∧ mid.filter (iterKeep ns ty) = [] ∧
        iterKeep ns ty it = true ∧
        iterInnerLoop ns ty (pre ++ post) fuel (spanSum pre) =
          some (spanSum pre + spanSum mid + it.span, it)) := by
  intro fuel
  induction fuel with
  | zero => intro post pre h; exact absurd h (by omega)
  | succ n ih =>
    intro post pre h
    rw [iterInnerLoop]
    have hskip := pageFindFrom_skip ⟨ns, ty, none, CHUNK_ANY, VER_ANY⟩ pre post 0
      (spanSum pre) (by omega)
    rw [Nat.zero_add] at hskip
    rw [hskip]
    rcases pageFindFrom_first ⟨ns, ty, none, CHUNK_ANY, VER_ANY⟩ post (spanSum pre)
        (spanSum pre) le_rfl with ⟨hnone, hnomatch⟩ |
      ⟨mid0, it0, rest0, hdec, hmid0, hit0, hfind⟩
    · rw [hnone]
      left
      exact ⟨rfl, filter_nil_of_nomatch ns ty post hnomatch⟩
    · rw [hfind]
      simp only
      by_cases hcond : isIterableItem it0 ∧ ¬ isMultipageBlob it0
      · rw [if_pos hcond]
        right
        refine ⟨mid0, it0, rest0, hdec, filter_nil_of_nomatch ns ty mid0 hmid0, ?_, rfl⟩
        unfold iterKeep
        simp only [decide_eq_true_eq]
        exact ⟨hit0, hcond.1, hcond.2⟩
      · rw [if_neg hcond]
        have hk0 : iterKeep ns ty it0 = false := iterKeep_false_of_skip ns ty it0 hcond
        have hitems : pre ++ post = ((pre ++ mid0) ++ [it0]) ++ rest0 := by
          rw [hdec]; simp
        have hcursor : spanSum pre + spanSum mid0 + it0.span =
            spanSum ((pre ++ mid0) ++ [it0]) := by
          rw [spanSum_append, spanSum_append, spanSum_cons, spanSum_nil]
          omega
        rw [hitems, hcursor]
        have hlen : rest0.length < n := by
          have : post.length = mid0.length + 1 + rest0.length := by rw [hdec]; simp; omega
          omega
        rcases ih rest0 ((pre ++ mid0) ++ [it0]) hlen with ⟨hnone1, hfil1⟩ |
          ⟨mid1, it1, rest1, hdec1, hfil1, hkeep1, heq1⟩
        · left
          refine ⟨hnone1, ?_⟩
          rw [hdec, List.filter_append, List.filter_cons, hk0]
          simp only [Bool.false_eq_true, if_false]
          rw [filter_nil_of_nomatch ns ty mid0 hmid0, hfil1]
          rfl
        · right
          refine ⟨mid0 ++ it0 :: mid1, it1, rest1, ?_, ?_, hkeep1, ?_⟩
          · rw [hdec, hdec1]
            simp
          · rw [List.filter_append, List.filter_cons, hk0]
            simp only [Bool.false_eq_true, if_false]
            rw [filter_nil_of_nomatch ns ty mid0 hmid0, hfil1]
            rfl
          · rw [heq1]
            have harith : spanSum ((pre ++ mid0) ++ [it0]) + spanSum mid1 + it1.span =
                spanSum pre + spanSum (mid0 ++ it0 :: mid1) + it1.span := by
              rw [spanSum_append, spanSum_append, spanSum_append, spanSum_cons,
                spanSum_cons, spanSum_nil]
              omega
            rw [harith]

theorem iterFindPages_spec (ns : Nat) (ty : ItemType) :
    ∀ (rest : List Page) (pi : Nat) (pre post : List EItem) (st : PageState),
      (iterFindPages ns ty (⟨st, pre ++ post⟩ :: rest) pi (spanSum pre) = none ∧
        post.filter (iterKeep ns ty) ++
          (rest.map (fun p => p.items.filter (iterKeep ns ty))).flatten = []) ∨
      (∃ pj idx it st2 pre2 post2 rest2,
        iterFindPages ns ty (⟨st, pre ++ post⟩ :: rest) pi (spanSum pre) =
          some (pj, idx, it) ∧
        pi ≤ pj ∧
        (⟨st, pre ++ post⟩ :: rest).drop (pj - pi) =
          (⟨st2, pre2 ++ post2⟩ : Page) :: rest2 ∧
        idx = spanSum pre2 ∧
        post.filter (iterKeep ns ty) ++
            (rest.map (fun p => p.items.filter (iterKeep ns ty))).flatten =
          it :: (post2.filter (iterKeep ns ty) ++
            (rest2.map (fun p => p.items.filter (iterKeep ns ty))).flatten)) := by
  intro rest
  induction rest with
  | nil =>
    intro pi pre post st
    rw [iterFindPages]
    simp only
    rcases iterInnerLoop_spec ns ty ((pre ++ post).length + 1) post pre
        (by simp; omega) with ⟨hnone, hfil⟩ | ⟨mid, it, r2, hdec, hfil, hk, heq⟩
    · rw [hnone]
      left
      refine ⟨rfl, ?_⟩
      simp [hfil]
    · rw [heq]
      right
      refine ⟨pi, spanSum pre + spanSum mid + it.span, it, st, (pre ++ mid) ++ [it], r2, [],
        rfl, le_rfl, ?_, ?_, ?_⟩
      · rw [Nat.sub_self, List.drop_zero, hdec]
        simp
      · rw [spanSum_append, spanSum_append, spanSum_cons, spanSum_nil]
        omega
      · rw [hdec, List.filter_append, hfil, List.filter_cons, hk]
        simp
  | cons p2 rest2 ih =>
    intro pi pre post st
    rw [iterFindPages]
    simp only
    rcases iterInnerLoop_spec ns ty ((pre ++ post).length + 1) post pre
        (by simp; omega) with ⟨hnone, hfil⟩ | ⟨mid, it, r2, hdec, hfil, hk, heq⟩
    · rw [hnone]
      have hp2 : p2 = (⟨p2.state, p2.items⟩ : Page) := rfl
      have ih2 := ih (pi + 1) [] p2.items p2.state
      rw [spanSum_nil, List.nil_append, ← hp2] at ih2
      rcases ih2 with ⟨hn2, hf2⟩ | ⟨pj, idx, it, st2, pre2, post2, rest3,
        heq2, hle2, hdrop2, hidx2, hyield2⟩
      · rw [hn2]
        left
        refine ⟨rfl, ?_⟩
        rw [hfil]
        simpa using hf2
      · rw [heq2]
        right
        refine ⟨pj, idx, it, st2, pre2, post2, rest3, rfl, by omega, ?_, hidx2, ?_⟩
        · rw [show pj - pi = (pj - (pi + 1)) + 1 from by omega, List.drop_succ_cons]
          exact hdrop2
        · rw [hfil]
          simpa using hyield2
    · rw [heq]
      right
      refine ⟨pi, spanSum pre + spanSum mid + it.span, it, st, (pre ++ mid) ++ [it], r2,
        p2 :: rest2, rfl, le_rfl, ?_, ?_, ?_⟩
      · rw [Nat.sub_self, List.drop_zero, hdec]
        simp
      · rw [spanSum_append, spanSum_append, spanSum_cons, spanSum_nil]
        omega
      · rw [hdec, List.filter_append, hfil, List.filter_cons, hk]
        simp

theorem iterCollect_spec (s : Storage) (ns : Nat) (ty : ItemType) :
    ∀ (fuel pageIndex : Nat) (pre post : List EItem) (st : PageState) (rest : List Page)
      (cur : Option EItem),
      s.mPages.drop pageIndex = (⟨st, pre ++ post⟩ : Page) :: rest →
      (post.filter (iterKeep ns ty) ++
        (rest.map (fun p => p.items.filter (iterKeep ns ty))).flatten).length < fuel →
      iterCollect s fuel ⟨ns, ty, spanSum pre, pageIndex, false, cur⟩ =
        post.filter (iterKeep ns ty) ++
          (rest.map (fun p => p.items.filter (iterKeep ns ty))).flatten := by
  intro fuel
  induction fuel with
  | zero => intro pageIndex pre post st rest cur hdrop hlen; exact absurd hlen (by omega)
  | succ n ih =>
    intro pageIndex pre post st rest cur hdrop hlen
    rw [iterCollect]
    unfold ItemIterator.next
    simp only
    rw [if_neg (by simp)]
    rw [hdrop]
    rcases iterFindPages_spec ns ty rest pageIndex pre post st with ⟨hnone, hfil⟩ |
      ⟨pj, idx, it, st2, pre2, post2, rest2, heq, hle, hdroprel, hidx, hyield⟩
    · rw [hnone]
      simp only
      exact hfil.symm
    · rw [heq]
      simp only
      rw [hyield]
      have hdrop2 : s.mPages.drop pj = (⟨st2, pre2 ++ post2⟩ : Page) :: rest2 := by
        have hcomp : s.mPages.drop pj = (s.mPages.drop pageIndex).drop (pj - pageIndex) := by
          rw [List.drop_drop]
          have : pageIndex + (pj - pageIndex) = pj := by omega
          rw [this]
        rw [hcomp, hdrop]
        exact hdroprel
      have hlen2 : (post2.filter (iterKeep ns ty) ++
          (rest2.map (fun p => p.items.filter (iterKeep ns ty))).flatten).length < n := by
        rw [hyield] at hlen
        simp only [List.length_cons] at hlen
        omega
      have := ih pj pre2 post2 st2 rest2 (some it) hdrop2 hlen2
      rw [hidx, this]

theorem flatten_filter_length_le (ns : Nat) (ty : ItemType) :
    ∀ (pages : List Page),
      ((pages.map (fun p => p.items.filter (iterKeep ns ty))).flatten).length ≤
        (pages.map (fun p => p.items.length)).sum := by
  intro pages
  induction pages with
  | nil => simp
  | cons p rest ih =>
    simp only [List.map_cons, List.flatten_cons, List.length_append, List.sum_cons]
    have := List.length_filter_le (iterKeep ns ty) p.items
    omega

theorem iterAllItems_eq_filter (s : Storage) (ns : Nat) (ty : ItemType) :
    iterAllItems s ns ty =
      (s.mPages.map (fun p => p.items.filter (iterKeep ns ty))).flatten := by
  unfold iterAllItems
  rcases hp : s.mPages with _ | ⟨p0, rest⟩
  · rw [iterCollect]
    unfold ItemIterator.next
    simp only
    rw [if_neg (by simp)]
    rw [List.drop_zero, hp]
    rw [show iterFindPages ns ty [] 0 0 = none from rfl]
    simp
  · have hdrop : s.mPages.drop 0 = (⟨p0.state, [] ++ p0.items⟩ : Page) :: rest := by
      rw [List.drop_zero, hp]
      rfl
    have hlen : (p0.items.filter (iterKeep ns ty) ++
        (rest.map (fun p => p.items.filter (iterKeep ns ty))).flatten).length <
        totalItems s + 1 := by
      have h1 := flatten_filter_length_le ns ty (p0 :: rest)
      simp only [List.map_cons, List.flatten_cons, List.sum_cons] at h1
      unfold totalItems
      rw [hp]
      simp only [List.map_cons, List.sum_cons]
      omega
    have := iterCollect_spec s ns ty (totalItems s + 1) 0 [] p0.items p0.state rest none
      hdrop hlen
    rw [spanSum_nil] at this
    rw [this]
    simp

/-- C8: the iterator created by findEntry yields exactly the user items,
page by page in storage order: an item is yielded iff it matches the
iterator's namespace/type query, has nsIndex different from 0, is not a
BLOB or BLOB_IDX entry, and, when it is a BLOB_DATA chunk, its chunk
index is one of the two version offsets; next() advances within the
current page, moves to the next page with the cursor reset on
exhaustion, and the sequence terminates after the last page (the yield
list over any namespace filter equals the page-ordered filtered
flatten). -/
theorem findEntry_iterates_user_items (s : Storage) (ns : Nat) (ty : ItemType) :
    iterAllItems s ns ty =
      (s.mPages.map (fun p => p.items.filter (iterKeep ns ty))).flatten ∧
    iterCollect s (totalItems s + 1) (Storage.findEntry s none ty) =
      (s.mPages.map (fun p => p.items.filter (iterKeep NS_ANY ty))).flatten := by
  refine ⟨iterAllItems_eq_filter s ns ty, ?_⟩
  have h := iterAllItems_eq_filter s NS_ANY ty
  unfold iterAllItems at h
  rw [show Storage.findEntry s none ty = ⟨NS_ANY, ty, 0, 0, false, none⟩ from rfl]
  exact h

/- ## C2: after init every WRITTEN BLOB_DATA is covered by a BLOB_IDX -/

theorem matches_wild_iff (ty : ItemType) (hty : ty ≠ .ANY) (x : EItem) :
    itemMatches ⟨NS_ANY, ty, none, CHUNK_ANY, VER_ANY⟩ x ↔
      x.status = .WRITTEN ∧ x.datatype = ty := by
  constructor
  · intro h
    refine ⟨h.1, ?_⟩
    rcases h.2.2.1 with h1 | h1
    · exact absurd h1 hty
    · exact h1
  · intro h
    exact ⟨h.1, Or.inl rfl, Or.inr h.2, Or.inl rfl, Or.inl rfl, Or.inl rfl⟩

theorem matches_exact_iff (a k ci : Nat) (tye : ItemType) (ha : a ≠ NS_ANY)
    (hci : ci ≠ CHUNK_ANY) (htye : tye ≠ .ANY) (y : EItem) :
    itemMatches ⟨a, tye, some k, ci, VER_ANY⟩ y ↔
      y.status = .WRITTEN ∧ y.datatype = tye ∧ y.nsIndex = a ∧ y.key = k ∧
        y.chunkIndex = ci := by
  constructor
  · intro h
    refine ⟨h.1, ?_, ?_, ?_, ?_⟩
    · rcases h.2.2.1 with h1 | h1
      · exact absurd h1 htye
      · exact h1
    · rcases h.2.1 with h1 | h1
      · exact absurd h1 ha
      · exact h1
    · rcases h.2.2.2.1 with h1 | h1
      · exact absurd h1 (by simp)
      · exact (Option.some.injEq _ _ ▸ h1).symm
    · rcases h.2.2.2.2.1 with h1 | h1
      · exact absurd h1 hci
      · exact h1
  · intro h
    exact ⟨h.1, Or.inr h.2.2.1, Or.inr h.2.1, Or.inr (by rw [h.2.2.2.1]), Or.inr h.2.2.2.2,
      Or.inl rfl⟩

theorem coveredBy_congr (L : List BlobIndexNode) (y it : EItem)
    (h1 : y.key = it.key) (h2 : y.nsIndex = it.nsIndex) (h3 : y.chunkIndex = it.chunkIndex) :
    coveredBy L y ↔ coveredBy L it := by
  unfold coveredBy
  rw [h1, h2, h3]

theorem eraseFirstAux_exact (q : Query) :
    ∀ (pre : List EItem) (it : EItem) (post : List EItem),
      (∀ x ∈ pre, ¬ itemMatches q x) → itemMatches q it →
      eraseFirstAux q (pre ++ it :: post) =
        some (pre ++ ({it with status := .ERASED}) :: post) := by
  intro pre
  induction pre with
  | nil =>
    intro it post h hm
    rw [List.nil_append, List.nil_append, eraseFirstAux, if_pos hm]
  | cons x pre ih =>
    intro it post h hm
    rw [List.cons_append, eraseFirstAux, if_neg (h x (List.mem_cons_self x pre))]
    rw [ih it post (fun y hy => h y (List.mem_cons_of_mem x hy)) hm]
    rfl

theorem erased_span (it : EItem) : ({it with status := EntryState.ERASED} : EItem).span = it.span := rfl

theorem orphanLoop_spec (L : List BlobIndexNode) :
    ∀ (fuel : Nat) (post pre : List EItem) (st : PageState),
      post.length < fuel →
      (∀ x ∈ pre ++ post, x.nsIndex ≠ NS_ANY ∧
        (x.datatype = .BLOB_DATA → x.chunkIndex ≠ CHUNK_ANY)) →
      (∀ x ∈ pre, x.status = .WRITTEN → x.datatype = .BLOB_DATA → coveredBy L x) →
      ∀ y ∈ (orphanLoop L fuel (⟨st, pre ++ post⟩ : Page) (spanSum pre)).items,
        y.status = .WRITTEN → y.datatype = .BLOB_DATA → coveredBy L y := by
  intro fuel
  induction fuel with
  | zero => intro post pre st hlen; exact absurd hlen (by omega)
  | succ n ih =>
    intro post pre st hlen hwf hpre
    rw [orphanLoop]
    simp only
    rw [pageFindFrom_skip ⟨NS_ANY, .BLOB_DATA, none, CHUNK_ANY, VER_ANY⟩ pre post 0
      (spanSum pre) (by omega), Nat.zero_add]
    rcases pageFindFrom_first ⟨NS_ANY, .BLOB_DATA, none, CHUNK_ANY, VER_ANY⟩ post
        (spanSum pre) (spanSum pre) le_rfl with ⟨hnone, hnomatch⟩ |
      ⟨mid, it, rest, hdec, hmid, hit, hfind⟩
    · rw [hnone]
      intro y hy hst hty
      simp only at hy
      rcases List.mem_append.mp hy with h1 | h2
      · exact hpre y h1 hst hty
      · exact absurd ((matches_wild_iff .BLOB_DATA (by simp) y).mpr ⟨hst, hty⟩)
          (hnomatch y h2)
    · rw [hfind]
      simp only
      have hitst := (matches_wild_iff .BLOB_DATA (by simp) it).mp hit
      have hmid2 : ∀ x ∈ mid, x.status = .WRITTEN → x.datatype = .BLOB_DATA → False := by
        intro x hx hst hty
        exact hmid x hx ((matches_wild_iff .BLOB_DATA (by simp) x).mpr ⟨hst, hty⟩)
      have hwfit : it.nsIndex ≠ NS_ANY ∧ it.chunkIndex ≠ CHUNK_ANY := by
        have h0 := hwf it (List.mem_append_right _ (by rw [hdec]; simp))
        exact ⟨h0.1, h0.2 hitst.2⟩
      by_cases hcov : coveredBy L it
      · rw [if_pos hcov]
        have hitems : pre ++ post = ((pre ++ mid) ++ [it]) ++ rest := by
          rw [hdec]; simp
        have hcursor : spanSum pre + spanSum mid + it.span =
            spanSum ((pre ++ mid) ++ [it]) := by
          rw [spanSum_append, spanSum_append, spanSum_cons, spanSum_nil]
          omega
        rw [hitems, hcursor]
        refine ih rest ((pre ++ mid) ++ [it]) st ?_ ?_ ?_
        · have : post.length = mid.length + 1 + rest.length := by rw [hdec]; simp; omega
          omega
        · intro x hx
          refine hwf x ?_
          rw [hitems]
          exact hx
        · intro x hx hst hty
          simp only [List.mem_append, List.mem_singleton] at hx
          rcases hx with (h1 | h2) | rfl
          · exact hpre x h1 hst hty
          · exact (hmid2 x h2 hst hty).elim
          · exact hcov
      · rw [if_neg hcov]
        have hqe : itemMatches
            ⟨it.nsIndex, it.datatype, some it.key, it.chunkIndex, VER_ANY⟩ it := by
          rw [hitst.2]
          exact (matches_exact_iff it.nsIndex it.key it.chunkIndex .BLOB_DATA hwfit.1
            hwfit.2 (by simp) it).mpr ⟨hitst.1, hitst.2, rfl, rfl, rfl⟩
        have hnom : ∀ x ∈ pre ++ mid, ¬ itemMatches
            ⟨it.nsIndex, it.datatype, some it.key, it.chunkIndex, VER_ANY⟩ x := by
          intro x hx hmx
          rw [hitst.2] at hmx
          have hx2 := (matches_exact_iff it.nsIndex it.key it.chunkIndex .BLOB_DATA hwfit.1
            hwfit.2 (by simp) x).mp hmx
          rcases List.mem_append.mp hx with h1 | h2
          · have hxcov := hpre x h1 hx2.1 hx2.2.1
            rw [coveredBy_congr L x it hx2.2.2.2.1 hx2.2.2.1 hx2.2.2.2.2] at hxcov
            exact hcov hxcov
          · exact hmid2 x h2 hx2.1 hx2.2.1
        have herase : (⟨st, pre ++ post⟩ : Page).eraseItem
            ⟨it.nsIndex, it.datatype, some it.key, it.chunkIndex, VER_ANY⟩ =
            (.OK, ⟨st, (pre ++ mid) ++ ({it with status := .ERASED}) :: rest⟩) := by
          unfold Page.eraseItem
          have hi2 : pre ++ post = (pre ++ mid) ++ it :: rest := by rw [hdec]; simp
          simp only
          rw [hi2, eraseFirstAux_exact _ (pre ++ mid) it rest hnom hqe]
        rw [herase]
        simp only
        have hitems2 : (pre ++ mid) ++ ({it with status := .ERASED}) :: rest =
            ((pre ++ mid) ++ [{it with status := .ERASED}]) ++ rest := by simp
        have hcursor : spanSum pre + spanSum mid + it.span =
            spanSum ((pre ++ mid) ++ [{it with status := .ERASED}]) := by
          rw [spanSum_append, spanSum_append, spanSum_cons, spanSum_nil, erased_span]
          omega
        rw [hitems2, hcursor]
        refine ih rest ((pre ++ mid) ++ [{it with status := .ERASED}]) st ?_ ?_ ?_
        · have : post.length = mid.length + 1 + rest.length := by rw [hdec]; simp; omega
          omega
        · intro x hx
          simp only [List.mem_append, List.mem_singleton] at hx
          rcases hx with ((h1 | h2) | rfl) | h3
          · exact hwf x (List.mem_append_left _ h1)
          · exact hwf x (List.mem_append_right _ (by rw [hdec]; simp [h2]))
          · exact ⟨hwfit.1, fun _ => hwfit.2⟩
          · exact hwf x (List.mem_append_right _ (by rw [hdec]; simp [h3]))
        · intro x hx hst hty
          simp only [List.mem_append, List.mem_singleton] at hx
          rcases hx with (h1 | h2) | rfl
          · exact hpre x h1 hst hty
          · exact (hmid2 x h2 hst hty).elim
          · exact absurd hst (by simp)

theorem orphanLoop_keeps (L : List BlobIndexNode) :
    ∀ (fuel : Nat) (p : Page) (c : Nat) (x : EItem),
      x ∈ p.items → x.datatype ≠ .BLOB_DATA →
      x ∈ (orphanLoop L fuel p c).items := by
  intro fuel
  induction fuel with
  | zero => intro p c x hx _; rw [orphanLoop]; exact hx
  | succ n ih =>
    intro p c x hx hxty
    rw [orphanLoop]
    rcases hf : pageFindFrom ⟨NS_ANY, .BLOB_DATA, none, CHUNK_ANY, VER_ANY⟩ p.items 0 c
      with _ | ⟨pos, it⟩
    · exact hx
    · simp only
      have hitty : it.datatype = .BLOB_DATA :=
        ((matches_wild_iff .BLOB_DATA (by simp) it).mp
          (pageFindFrom_some _ p.items 0 c pos it hf).2).2
      by_cases hcov : coveredBy L it
      · rw [if_pos hcov]
        exact ih p _ x hx hxty
      · rw [if_neg hcov]
        rcases he : eraseFirstAux
            ⟨it.nsIndex, it.datatype, some it.key, it.chunkIndex, VER_ANY⟩ p.items
          with _ | items2
        · have hpe : p.eraseItem
              ⟨it.nsIndex, it.datatype, some it.key, it.chunkIndex, VER_ANY⟩ =
              (.NOT_FOUND, p) := by
            unfold Page.eraseItem
            rw [he]
          rw [hpe]
          exact ih p _ x hx hxty
        · have hpe : p.eraseItem
              ⟨it.nsIndex, it.datatype, some it.key, it.chunkIndex, VER_ANY⟩ =
              (.OK, { p with items := items2 }) := by
            unfold Page.eraseItem
            rw [he]
          rw [hpe]
          rcases eraseFirstAux_decomp _ p.items items2 he with
            ⟨pre1, e0, post1, hi1, hi2, hm0, _⟩
          have he0ty : e0.datatype = .BLOB_DATA := by
            rcases hm0.2.2.1 with h1 | h1
            · rw [hitty] at h1
              exact absurd h1 (by simp)
            · rw [h1, hitty]
          have hx2 : x ∈ items2 := by
            rw [hi1] at hx
            rw [hi2]
            rcases List.mem_append.mp hx with h1 | h2
            · exact List.mem_append_left _ h1
            · rcases List.mem_cons.mp h2 with rfl | h3
              · exact absurd he0ty hxty
              · exact List.mem_append_right _ (List.mem_cons_of_mem _ h3)
          exact ih { p with items := items2 } _ x hx2 hxty

theorem collectBlobIdx_mem (items : List EItem) :
    ∀ (fuel c : Nat) (e : BlobIndexNode), e ∈ collectBlobIdxLoop items fuel c →
      ∃ x ∈ items, itemMatches ⟨NS_ANY, .BLOB_IDX, none, CHUNK_ANY, VER_ANY⟩ x ∧
        e = ⟨x.key, x.nsIndex, x.blobIndex.chunkCount, x.blobIndex.chunkStart⟩ := by
  intro fuel
  induction fuel with
  | zero => intro c e he; rw [collectBlobIdxLoop] at he; simp at he
  | succ n ih =>
    intro c e he
    rw [collectBlobIdxLoop] at he
    rcases hf : pageFindFrom ⟨NS_ANY, .BLOB_IDX, none, CHUNK_ANY, VER_ANY⟩ items 0 c
      with _ | ⟨pos, x⟩ <;> rw [hf] at he
    · simp at he
    · simp only [List.mem_cons] at he
      rcases he with rfl | he2
      · have hx := pageFindFrom_some _ items 0 c pos x hf
        exact ⟨x, hx.1, hx.2, rfl⟩
      · exact ih (pos + x.span) e he2

/-- C2: after init, every WRITTEN BLOB_DATA item of the mounted Storage
is covered by a WRITTEN BLOB_IDX item whose chunk range
`[chunkStart, chunkStart + chunkCount)` contains its chunk index: the
orphan-reclamation pass of init erases every uncovered chunk, and the
blob indices collected before the pass survive it untouched.  The
hypothesis is the representation invariant that no stored item uses the
reserved wildcard namespace 255 and no BLOB_DATA chunk uses the
reserved chunk index 255. -/
theorem init_covers_blob_data (s : Storage)
    (hwf : ∀ p ∈ s.mPages, ∀ x ∈ p.items, x.nsIndex ≠ NS_ANY ∧
      (x.datatype = .BLOB_DATA → x.chunkIndex ≠ CHUNK_ANY)) :
    ∀ p ∈ (Storage.init s).2.mPages, ∀ y ∈ p.items,
      y.status = .WRITTEN → y.datatype = .BLOB_DATA →
      ∃ pb ∈ (Storage.init s).2.mPages, ∃ idx ∈ pb.items,
        idx.status = .WRITTEN ∧ idx.datatype = .BLOB_IDX ∧
        idx.key = y.key ∧ idx.nsIndex = y.nsIndex ∧
        idx.blobIndex.chunkStart ≤ y.chunkIndex ∧
        y.chunkIndex < idx.blobIndex.chunkStart + idx.blobIndex.chunkCount := by
  have hpages : (Storage.init s).2.mPages =
      s.mPages.map (fun q => orphanLoop
        ((s.mPages.map (fun p => collectBlobIdxLoop p.items (p.items.length + 1) 0)).flatten)
        (q.items.length + 1) q 0) := rfl
  intro p hp y hy hst hty
  rw [hpages] at hp
  rcases List.mem_map.mp hp with ⟨p0, hp0, rfl⟩
  have hcov : coveredBy
      ((s.mPages.map (fun p => collectBlobIdxLoop p.items (p.items.length + 1) 0)).flatten)
      y := by
    have hspec := orphanLoop_spec
      ((s.mPages.map (fun p => collectBlobIdxLoop p.items (p.items.length + 1) 0)).flatten)
      (p0.items.length + 1) p0.items [] p0.state
      (by omega) (by simpa using hwf p0 hp0) (by simp)
    rw [spanSum_nil] at hspec
    exact hspec y hy hst hty
  rcases hcov with ⟨e, heL, hk, hn, hlo, hhi⟩
  rcases List.mem_flatten.mp heL with ⟨l1, hl1, hel1⟩
  rcases List.mem_map.mp hl1 with ⟨p2, hp2, rfl⟩
  rcases collectBlobIdx_mem p2.items (p2.items.length + 1) 0 e hel1 with
    ⟨x, hxmem, hxmatch, rfl⟩
  have hxw := (matches_wild_iff .BLOB_IDX (by simp) x).mp hxmatch
  refine ⟨orphanLoop
      ((s.mPages.map (fun p => collectBlobIdxLoop p.items (p.items.length + 1) 0)).flatten)
      (p2.items.length + 1) p2 0, ?_, x, ?_, hxw.1, hxw.2, ?_, ?_, ?_, ?_⟩
  · rw [hpages]
    exact List.mem_map_of_mem _ hp2
  · exact orphanLoop_keeps _ (p2.items.length + 1) p2 0 x hxmem (by rw [hxw.2]; simp)
  · exact hk.symm
  · exact hn.symm
  · exact hlo
  · exact hhi

/-- Blob index of the C2 witness: covers chunk indices [0, 1) of key 5. -/
def c2Idx : EItem := ⟨1, .BLOB_IDX, 5, CHUNK_ANY, [], ⟨32, 1, VER_0_OFFSET⟩, .WRITTEN⟩

/-- Covered chunk of the C2 witness. -/
def c2Chunk : EItem := ⟨1, .BLOB_DATA, 5, VER_0_OFFSET, [7], ⟨0, 0, 0⟩, .WRITTEN⟩

/-- Orphan chunk of the C2 witness: no index covers key 9. -/
def c2Orphan : EItem := ⟨1, .BLOB_DATA, 9, 0, [3], ⟨0, 0, 0⟩, .WRITTEN⟩

/-- Unmounted storage of the C2 witness. -/
def c2State : Storage := ⟨[⟨.ACTIVE, [c2Idx, c2Chunk, c2Orphan]⟩], 0, [], [], .INVALID, .OK⟩

/-- Witness for C2 at a concrete state: after init the covered chunk is
still WRITTEN and its covering index is found (while the orphan chunk of
key 9 has been erased by the reclamation pass). -/
theorem init_covers_blob_data_witness :
    (∃ pb ∈ (Storage.init c2State).2.mPages, ∃ idx ∈ pb.items,
      idx.status = .WRITTEN ∧ idx.datatype = .BLOB_IDX ∧
      idx.key = c2Chunk.key ∧ idx.nsIndex = c2Chunk.nsIndex ∧
      idx.blobIndex.chunkStart ≤ c2Chunk.chunkIndex ∧
      c2Chunk.chunkIndex < idx.blobIndex.chunkStart + idx.blobIndex.chunkCount) ∧
    (Storage.init c2State).2.mPages =
      [⟨.ACTIVE, [c2Idx, c2Chunk, ⟨1, .BLOB_DATA, 9, 0, [3], ⟨0, 0, 0⟩, .ERASED⟩]⟩] :=
  ⟨init_covers_blob_data c2State (by decide)
    ⟨.ACTIVE, [c2Idx, c2Chunk, ⟨1, .BLOB_DATA, 9, 0, [3], ⟨0, 0, 0⟩, .ERASED⟩]⟩ (by decide)
    c2Chunk (by decide) (by decide) (by decide), by decide⟩
